import Mathlib

/-!
Verification of the territory-partitioning core of the Rugby-Map repository
(`make_tier_maps.py`), as a shallow embedding in Lean 4.

Modelling conventions:
* Python dicts that are iterated or built incrementally are association lists
  `List (String × V)` in insertion order, with `alookup` for `d.get(k)` /
  `k in d`, `ainsert` for `d[k] = v`, and `alAppend` for
  `d.setdefault(k, []).append(v)`.
* Python dict indexing `d[k]` that is guaranteed in the source to succeed
  (`lad_regions[lad_name]`, `ward_regions[ward_name]`, `league_colors[lg]`,
  `itl2_by_name[name]`) is modelled as a total function `String → _`.
* Geometry (shapely) is opaque: a type parameter `G` together with a
  `GeomOps` record of the geometric primitives the source calls
  (`prepared.contains`, `centroid.distance`, `bounds`, `Polygon`,
  `intersection`, `is_empty`, `area`, `unary_union`).  scipy's `Voronoi`
  is an oracle `List (Rat × Rat) → VorDiagram`.
* Python floats are rationals; the source only compares them.
* Python `set` of strings is `pyset` (first-occurrence dedup); the source
  only takes sizes, the sole element, sorted lists, or membership of such
  sets, all of which are independent of iteration order.
* `min(xs, key=f)` is `minBy f xs`, which returns the first element
  attaining the minimum, exactly as Python does.
-/

/-- A team record (`MapTeam` in `utils.py`); presentation-only fields
(url, address, image) that the partitioning code never reads are omitted. -/
structure MapTeam where
  name : String
  league : String
  tier : String
  latitude : Rat
  longitude : Rat
  deriving DecidableEq, Repr

/-- First-match association-list lookup, modelling `d.get(k)` / `k in d`. -/
def alookup {V : Type} (m : List (String × V)) (k : String) : Option V :=
  (m.find? (fun p => p.1 == k)).map (fun p => p.2)

/-- Insertion-ordered dict update, modelling `d[k] = v`. -/
def ainsert {V : Type} (m : List (String × V)) (k : String) (v : V) : List (String × V) :=
  if (m.find? (fun p => p.1 == k)).isSome then
    m.map (fun p => if p.1 == k then (k, v) else p)
  else m ++ [(k, v)]

/-- Modelling `d.setdefault(k, []).append(v)` on a dict of lists. -/
def alAppend {V : Type} (m : List (String × List V)) (k : String) (v : V) :
    List (String × List V) :=
  if (m.find? (fun p => p.1 == k)).isSome then
    m.map (fun p => if p.1 == k then (p.1, p.2 ++ [v]) else p)
  else m ++ [(k, [v])]

/-- Python `set(...)` built from a list of strings, in first-occurrence order. -/
def pyset (l : List String) : List String :=
  l.foldl (fun acc x => if x ∈ acc then acc else acc ++ [x]) []

/-- Insert a string into a ≤-sorted list. -/
def insertSorted (x : String) : List String → List String
  | [] => [x]
  | y :: ys => if x ≤ y then x :: y :: ys else y :: insertSorted x ys

/-- Python `sorted(...)` on a list of strings (insertion sort). -/
def pysorted (l : List String) : List String := l.foldr insertSorted []

/-- Python `min(xs, key=f)`: first element attaining the least key,
`none` on the empty list (where Python raises; every call site below
passes a nonempty list). -/
def minBy {α : Type} (f : α → Rat) : List α → Option α
  | [] => none
  | x :: xs => some (xs.foldl (fun best y => if f y < f best then y else best) x)

/-- The geometric primitives of shapely that the partitioning code calls,
abstracted over an opaque geometry type `G`.  `containsTeam g t` is
`prep(g).contains(Point(t.longitude, t.latitude))`; `centroidDist g t` is
`g.centroid.distance(Point(t.longitude, t.latitude))`. -/
structure GeomOps (G : Type) where
  containsTeam : G → MapTeam → Bool
  centroidDist : G → MapTeam → Rat
  bounds : G → Rat × Rat × Rat × Rat
  mkPolygon : List (Rat × Rat) → G
  intersection : G → G → G
  isEmpty : G → Bool
  area : G → Rat
  unaryUnion : List G → G

/-- The part of scipy's `Voronoi` result that `create_bounded_voronoi`
reads: `point_region`, `regions` (vertex indices, `-1` marking the point
at infinity) and `vertices`. -/
structure VorDiagram where
  point_region : List Nat
  regions : List (List Int)
  vertices : List (Rat × Rat)

/-- The `ITLHierarchy` record of `make_tier_maps.py`, restricted to the
fields the partitioning functions read.  The `itl*_regions` dicts are kept
as association lists name ↦ geometry (they are iterated); `lad_regions`
and `ward_regions` are only ever indexed at names enumerated by the
hierarchy itself, so they are total functions. -/
structure ITLHierarchy (G : Type) where
  itl0_regions : List (String × G)
  itl1_regions : List (String × G)
  itl2_regions : List (String × G)
  itl3_regions : List (String × G)
  lad_regions : String → G
  ward_regions : String → G
  itl3_to_itl2 : List (String × String)
  itl2_to_itl1 : List (String × String)
  itl1_to_itl2s : List (String × List String)
  itl2_to_itl3s : List (String × List String)
  itl3_to_lads : List (String × List String)
  lad_to_wards : List (String × List String)

/-- The `RegionToTeams` reverse index produced by
`assign_teams_to_itl_regions`. -/
structure RegionToTeams where
  itl1 : List (String × List MapTeam)
  itl2 : List (String × List MapTeam)
  itl3 : List (String × List MapTeam)

/-- The result of a single team lookup inside
`assign_teams_to_itl_regions`: the `itl1`/`itl2`/`itl3` fields written on
the team record (`None` = no containing region found at that level). -/
structure ITLAssignment where
  itl1 : Option String
  itl2 : Option String
  itl3 : Option String
  deriving DecidableEq, Repr

/-- The per-team body of `assign_teams_to_itl_regions`: test every ITL1
region in order, then only the found ITL1's children among ITL2, then only
the found ITL2's children among ITL3; first match wins at every level and
the search stops at the first level with no match. -/
def assign_team_to_itl_regions {G : Type}
    (contains : G → MapTeam → Bool)
    (itl1_regions : List (String × G))
    (itl2_regions : String → G) (itl3_regions : String → G)
    (itl1_to_itl2s : List (String × List String))
    (itl2_to_itl3s : List (String × List String))
    (team : MapTeam) : ITLAssignment :=
  match itl1_regions.find? (fun p => contains p.2 team) with
  | none => { itl1 := none, itl2 := none, itl3 := none }
  | some p1 =>
    let itl2_candidates := (alookup itl1_to_itl2s p1.1).getD []
    match itl2_candidates.find? (fun n => contains (itl2_regions n) team) with
    | none => { itl1 := some p1.1, itl2 := none, itl3 := none }
    | some n2 =>
      let itl3_candidates := (alookup itl2_to_itl3s n2).getD []
      match itl3_candidates.find? (fun n => contains (itl3_regions n) team) with
      | none => { itl1 := some p1.1, itl2 := some n2, itl3 := none }
      | some n3 => { itl1 := some p1.1, itl2 := some n2, itl3 := some n3 }

/-- One dict entry produced by the splitters (`{"geom": ..., "color": ...,
"league": ...}` in the source). -/
structure SplitPiece (G : Type) where
  geom : G
  color : String
  league : String
  deriving DecidableEq, Repr

/-- The raw scipy cell of input point `i`:
`vor.regions[vor.point_region[i]]`. -/
def cellRawVertices (v : VorDiagram) (i : Nat) : List Int :=
  v.regions.getD (v.point_region.getD i 0) []

/-- The reconstructed polygon ring of input point `i`:
`[(vor.vertices[j][1], vor.vertices[j][0]) for j in region_vertices]`
(lat/lon swapped to lon/lat, as in the source). -/
def cellVertices (v : VorDiagram) (i : Nat) : List (Rat × Rat) :=
  (cellRawVertices v i).map (fun j =>
    let p := v.vertices.getD j.toNat (0, 0)
    (p.2, p.1))

/-- One iteration of the `for point_idx in range(len(teams))` loop of
`create_bounded_voronoi`: skip empty cells, cells containing the
`-1` infinity marker and degenerate (<3 vertex) cells, clip the cell to
the boundary, and keep the clip only when it is non-empty with positive
area (`not clipped.is_empty and clipped.area > 0`). -/
def voronoiCellStep {G : Type} (ops : GeomOps G) (boundary_geom : G) (v : VorDiagram)
    (cells : List (String × List G)) (pt : Nat × MapTeam) : List (String × List G) :=
  let region_vertices := cellRawVertices v pt.1
  if region_vertices.isEmpty then cells
  else if region_vertices.contains (-1) then cells
  else
    let vertices := cellVertices v pt.1
    if vertices.length < 3 then cells
    else
      let cell := ops.mkPolygon vertices
      let clipped := ops.intersection cell boundary_geom
      if !(ops.isEmpty clipped) && decide (0 < ops.area clipped) then
        alAppend cells pt.2.league clipped
      else cells

/-- The `all_points` array handed to scipy: the team positions (lat, lon)
followed by the four synthetic corner points placed `2 * max(width,
height)` outside the boundary's bounding box. -/
def vorInputPoints {G : Type} (ops : GeomOps G) (teams : List MapTeam)
    (boundary_geom : G) : List (Rat × Rat) :=
  let points := teams.map (fun t => (t.latitude, t.longitude))
  let b := ops.bounds boundary_geom
  let minx := b.1
  let miny := b.2.1
  let maxx := b.2.2.1
  let maxy := b.2.2.2
  let width := maxx - minx
  let height := maxy - miny
  let padding := (max width height) * 2
  points ++
    [(miny - padding, minx - padding), (miny - padding, maxx + padding),
     (maxy + padding, maxx + padding), (maxy + padding, minx - padding)]

/-- The final loop of `create_bounded_voronoi`
(`for league, cells in team_cells.items(): if cells: result.append(...)`):
union each league's accepted cells into one piece. -/
def voronoiEmitStep {G : Type} (ops : GeomOps G) (league_colors : String → String)
    (result : List (SplitPiece G)) (p : String × List G) : List (SplitPiece G) :=
  if p.2.isEmpty then result
  else result ++ [{ geom := ops.unaryUnion p.2, color := league_colors p.1,
                    league := p.1 }]

/-- `create_bounded_voronoi(teams, boundary_geom, league_colors)`:
fewer than two teams yield `[]` before any geometry or tessellation work;
otherwise the Voronoi diagram over teams plus corner points is computed,
each team's cell is clipped to the boundary, accepted clips are grouped by
league (`team_cells`) and unioned into one piece per league. -/
def create_bounded_voronoi {G : Type} (ops : GeomOps G)
    (voronoi : List (Rat × Rat) → VorDiagram)
    (teams : List MapTeam) (boundary_geom : G)
    (league_colors : String → String) : List (SplitPiece G) :=
  if teams.length < 2 then []
  else
    let v := voronoi (vorInputPoints ops teams boundary_geom)
    let team_cells := teams.enum.foldl (voronoiCellStep ops boundary_geom v) []
    team_cells.foldl (voronoiEmitStep ops league_colors) []

/-- Python set of the leagues of a team list
(`{t["league"] for t in ts}`). -/
def leaguesOf (ts : List MapTeam) : List String := pyset (ts.map (fun t => t.league))

/-- The ward branch of `create_lad_based_split`: an empty ward goes whole
to the nearest team of the surrounding LAD, a single-league ward goes
whole to that league, a contested ward is tessellated by
`create_bounded_voronoi`. -/
def processWard {G : Type} (ops : GeomOps G) (voronoi : List (Rat × Rat) → VorDiagram)
    (itl_hierarchy : ITLHierarchy G) (league_colors : String → String)
    (teams_in_lad : List MapTeam) (ward_name : String) : List (SplitPiece G) :=
  let ward_geom := itl_hierarchy.ward_regions ward_name
  let teams_in_ward := teams_in_lad.filter (fun t => ops.containsTeam ward_geom t)
  if teams_in_ward.isEmpty then
    match minBy (fun t => ops.centroidDist ward_geom t) teams_in_lad with
    | some closest =>
        [{ geom := ward_geom, color := league_colors closest.league,
           league := closest.league }]
    | none => []
  else
    let leagues_in_ward := leaguesOf teams_in_ward
    if leagues_in_ward.length == 1 then
      let league := leagues_in_ward.headD ""
      [{ geom := ward_geom, color := league_colors league, league := league }]
    else
      create_bounded_voronoi ops voronoi teams_in_ward ward_geom league_colors

/-- The LAD branch of `create_lad_based_split`: an empty LAD goes whole to
the nearest of all inherited teams, a single-league LAD goes whole to that
league, and a contested LAD is split by wards (or, with no wards listed,
goes whole to the nearest team inside it). -/
def processLad {G : Type} (ops : GeomOps G) (voronoi : List (Rat × Rat) → VorDiagram)
    (itl_hierarchy : ITLHierarchy G) (league_colors : String → String)
    (teams : List MapTeam) (lad_name : String) : List (SplitPiece G) :=
  let lad_geom := itl_hierarchy.lad_regions lad_name
  let teams_in_lad := teams.filter (fun t => ops.containsTeam lad_geom t)
  if teams_in_lad.isEmpty then
    match minBy (fun t => ops.centroidDist lad_geom t) teams with
    | some closest =>
        [{ geom := lad_geom, color := league_colors closest.league,
           league := closest.league }]
    | none => []
  else
    let leagues_in_lad := leaguesOf teams_in_lad
    if leagues_in_lad.length == 1 then
      let league := leagues_in_lad.headD ""
      [{ geom := lad_geom, color := league_colors league, league := league }]
    else
      let wards_in_lad := (alookup itl_hierarchy.lad_to_wards lad_name).getD []
      if wards_in_lad.isEmpty then
        match minBy (fun t => ops.centroidDist lad_geom t) teams_in_lad with
        | some closest =>
            [{ geom := lad_geom, color := league_colors closest.league,
               league := closest.league }]
        | none => []
      else
        (wards_in_lad.map
          (processWard ops voronoi itl_hierarchy league_colors teams_in_lad)).flatten

/-- `create_lad_based_split(teams, itl3_region_name, itl_hierarchy,
league_colors)`: returns `[]` for fewer than two teams or when
`itl3_to_lads` enumerates no LADs for the region; otherwise concatenates
the per-LAD results. -/
def create_lad_based_split {G : Type} (ops : GeomOps G)
    (voronoi : List (Rat × Rat) → VorDiagram)
    (teams : List MapTeam) (itl3_region_name : String)
    (itl_hierarchy : ITLHierarchy G) (league_colors : String → String) :
    List (SplitPiece G) :=
  if teams.length < 2 then []
  else
    let lads_in_itl3 := (alookup itl_hierarchy.itl3_to_lads itl3_region_name).getD []
    if lads_in_itl3.isEmpty then []
    else
      (lads_in_itl3.map
        (processLad ops voronoi itl_hierarchy league_colors teams)).flatten

/-- The `LeagueRegionColors` dict returned by `color_regions_by_league`
(the source also returns an `itl0` key beyond its TypedDict). -/
structure LeagueRegionColors where
  itl0 : List (String × String)
  itl1 : List (String × String)
  itl2 : List (String × String)
  itl3 : List (String × String)
  itl3_multi_league : List String
  deriving DecidableEq, Repr

/-- `[t for t in teams_in_region if t in teams]`. -/
def tierTeams (teams : List MapTeam) (teams_in_region : List MapTeam) : List MapTeam :=
  teams_in_region.filter (fun t => decide (t ∈ teams))

/-- `sorted({t["league"] for t in teams})`. -/
def allLeagues (teams : List MapTeam) : List String :=
  pysorted (pyset (teams.map (fun t => t.league)))

/-- `teams[0]["tier"] if teams else None`. -/
def tierName (teams : List MapTeam) : Option String :=
  teams.head?.map (fun t => t.tier)

/-- `tier_name in ["Premiership", "Championship", "National League 1",
"Premiership Women's"]` (a `None` tier name is in no list). -/
def doNationalShading (teams : List MapTeam) : Bool :=
  match tierName teams with
  | some t => ["Premiership", "Championship", "National League 1",
               "Premiership Women\x27s"].contains t
  | none => false

/-- `tier_name in ["National League 2", "Championship 1", "Championship 2"]`. -/
def doBiggerShading (teams : List MapTeam) : Bool :=
  match tierName teams with
  | some t => ["National League 2", "Championship 1", "Championship 2"].contains t
  | none => false

/-- Python truthiness of an optional region name: `None` and the empty
string are falsy. -/
def pyTruthy (o : Option String) : Option String :=
  match o with
  | some s => if s == "" then none else some s
  | none => none

/-- Step 1 of `color_regions_by_league`: an ITL3 region is owned by a
league when its tier teams are nonempty and all of one league. -/
def itl3OwnershipStep (teams : List MapTeam) (own : List (String × String))
    (p : String × List MapTeam) : List (String × String) :=
  let tier_teams := tierTeams teams p.2
  if 0 < tier_teams.length then
    let leagues := leaguesOf tier_teams
    if leagues.length == 1 then ainsert own p.1 (leagues.headD "") else own
  else own

/-- The `league_itl3_counts` / `league_itl2_counts` accumulation: count,
per league, the owned child regions. -/
def countsStep (child_ownership : List (String × String))
    (cnts : List (String × Nat)) (n : String) : List (String × Nat) :=
  match alookup child_ownership n with
  | some league => ainsert cnts league ((alookup cnts league).getD 0 + 1)
  | none => cnts

/-- Step 2 of `color_regions_by_league`: an ITL2 with tier teams of a
single league is owned when the bigger-shading tiers apply, or when that
league owns two child ITL3s (or the only child ITL3). -/
def itl2OwnershipStep (teams : List MapTeam) (bigger : Bool)
    (itl2_to_itl3s : List (String × List String))
    (itl3_ownership : List (String × String))
    (own : List (String × String)) (p : String × List MapTeam) :
    List (String × String) :=
  let tier_teams := tierTeams teams p.2
  if tier_teams.length == 0 then own
  else
    let leagues_in_itl2 := leaguesOf tier_teams
    if 1 < leagues_in_itl2.length then own
    else if bigger && (leagues_in_itl2.length == 1) then
      ainsert own p.1 (leagues_in_itl2.headD "")
    else
      let itl3s_in_itl2 := (alookup itl2_to_itl3s p.1).getD []
      let league_itl3_counts := itl3s_in_itl2.foldl (countsStep itl3_ownership) []
      match league_itl3_counts.find?
          (fun c => decide (2 ≤ c.2) || (c.2 == 1 && itl3s_in_itl2.length == 1)) with
      | some c => ainsert own p.1 c.1
      | none => own

/-- Step 2.5 of `color_regions_by_league`: promote an unowned single-league
ITL2 when it holds an ITL3 owned by that league and a sibling ITL2 under
the same (truthy) parent ITL1 is already owned by the league. -/
def itl2EnhanceStep (teams : List MapTeam)
    (itl2_to_itl3s : List (String × List String))
    (itl2_to_itl1 : List (String × String))
    (itl1_to_itl2s : List (String × List String))
    (itl3_ownership : List (String × String))
    (own : List (String × String)) (p : String × List MapTeam) :
    List (String × String) :=
  if (alookup own p.1).isSome then own
  else
    let tier_teams := tierTeams teams p.2
    if tier_teams.length == 0 then own
    else
      let leagues_in_itl2 := leaguesOf tier_teams
      if leagues_in_itl2.length != 1 then own
      else
        let league := leagues_in_itl2.headD ""
        let itl3s_in_itl2 := (alookup itl2_to_itl3s p.1).getD []
        let has_owned_itl3 := itl3s_in_itl2.any
          (fun n => alookup itl3_ownership n == some league)
        if !has_owned_itl3 then own
        else
          match pyTruthy (alookup itl2_to_itl1 p.1) with
          | none => own
          | some parent_itl1 =>
            let itl2s_in_itl1 := (alookup itl1_to_itl2s parent_itl1).getD []
            let sibling_itl2_owned := itl2s_in_itl1.any
              (fun o => o != p.1 && alookup own o == some league)
            if sibling_itl2_owned then ainsert own p.1 league else own

/-- Step 3 of `color_regions_by_league`: ITL1 ownership, mirroring the
ITL2 rule one level up (counting owned child ITL2s). -/
def itl1OwnershipStep (teams : List MapTeam) (bigger : Bool)
    (itl1_to_itl2s : List (String × List String))
    (itl2_ownership : List (String × String))
    (own : List (String × String)) (p : String × List MapTeam) :
    List (String × String) :=
  let tier_teams := tierTeams teams p.2
  if tier_teams.length == 0 then own
  else
    let leagues_in_itl1 := leaguesOf tier_teams
    if 1 < leagues_in_itl1.length then own
    else if bigger && (leagues_in_itl1.length == 1) then
      ainsert own p.1 (leagues_in_itl1.headD "")
    else
      let itl2s_in_itl1 := (alookup itl1_to_itl2s p.1).getD []
      let league_itl2_counts := itl2s_in_itl1.foldl (countsStep itl2_ownership) []
      match league_itl2_counts.find?
          (fun c => decide (2 ≤ c.2) || (c.2 == 1 && itl2s_in_itl1.length == 1)) with
      | some c => ainsert own p.1 c.1
      | none => own

/-- Final ITL2 filter of `color_regions_by_league`: keep an owned ITL2
unless its (truthy) parent ITL1 is owned by some league. -/
def itl2FilterStep (itl2_to_itl1 : List (String × String))
    (itl1_ownership : List (String × String))
    (acc : List (String × String)) (p : String × String) : List (String × String) :=
  match pyTruthy (alookup itl2_to_itl1 p.1) with
  | some parent_itl1 =>
    if (alookup itl1_ownership parent_itl1).isSome then acc
    else ainsert acc p.1 p.2
  | none => ainsert acc p.1 p.2

/-- The two skip tests shared by the final ITL3 filter and the
multi-league scan: parent ITL2 owned, or grandparent ITL1 owned (both
through Python truthiness of the looked-up names). -/
def itl3ParentOwned (itl3_to_itl2 : List (String × String))
    (itl2_to_itl1 : List (String × String))
    (itl2_ownership : List (String × String))
    (itl1_ownership : List (String × String)) (name : String) : Bool :=
  let parent_itl2 := pyTruthy (alookup itl3_to_itl2 name)
  let skip1 := match parent_itl2 with
    | some q => (alookup itl2_ownership q).isSome
    | none => false
  let grandparent_itl1 := match parent_itl2 with
    | some q => pyTruthy (alookup itl2_to_itl1 q)
    | none => none
  let skip2 := match grandparent_itl1 with
    | some g => (alookup itl1_ownership g).isSome
    | none => false
  skip1 || skip2

/-- Final ITL3 filter of `color_regions_by_league`: keep an owned ITL3
unless its parent ITL2 or grandparent ITL1 is owned. -/
def itl3FilterStep (itl3_to_itl2 : List (String × String))
    (itl2_to_itl1 : List (String × String))
    (itl2_ownership : List (String × String))
    (itl1_ownership : List (String × String))
    (acc : List (String × String)) (p : String × String) : List (String × String) :=
  if itl3ParentOwned itl3_to_itl2 itl2_to_itl1 itl2_ownership itl1_ownership p.1 then acc
  else ainsert acc p.1 p.2

/-- The `itl3_multi_league` scan of `color_regions_by_league`: unowned
ITL3s with no owned ancestor holding at least two tier teams of at least
two leagues. -/
def itl3MultiStep (teams : List MapTeam)
    (itl3_ownership : List (String × String))
    (itl3_to_itl2 : List (String × String))
    (itl2_to_itl1 : List (String × String))
    (itl2_ownership : List (String × String))
    (itl1_ownership : List (String × String))
    (acc : List String) (p : String × List MapTeam) : List String :=
  if (alookup itl3_ownership p.1).isSome then acc
  else if itl3ParentOwned itl3_to_itl2 itl2_to_itl1 itl2_ownership itl1_ownership p.1 then
    acc
  else
    let tier_teams := tierTeams teams p.2
    if 2 ≤ tier_teams.length then
      if 2 ≤ (leaguesOf tier_teams).length then acc ++ [p.1] else acc
    else acc

/-- `color_regions_by_league(teams, region_to_teams, itl_hierarchy)`:
the bottom-up ownership resolution.  The national-shading tiers with a
single league short-circuit to all of England; otherwise ITL3, ITL2
(with enhancement step 2.5) and ITL1 ownership are computed bottom-up and
finer-level ownership under an owned ancestor is filtered out of the
returned maps. -/
def color_regions_by_league {G : Type} (teams : List MapTeam)
    (region_to_teams : RegionToTeams) (itl_hierarchy : ITLHierarchy G) :
    LeagueRegionColors :=
  let itl1_to_teams := region_to_teams.itl1
  let itl2_to_teams := region_to_teams.itl2
  let itl3_to_teams := region_to_teams.itl3
  let itl1_to_itl2s := itl_hierarchy.itl1_to_itl2s
  let itl2_to_itl3s := itl_hierarchy.itl2_to_itl3s
  let itl2_to_itl1 := itl_hierarchy.itl2_to_itl1
  let all_leagues := allLeagues teams
  if doNationalShading teams && (all_leagues.length == 1) then
    { itl0 := [("England", all_leagues.headD "")], itl1 := [], itl2 := [],
      itl3 := [], itl3_multi_league := [] }
  else
    let itl3_ownership := itl3_to_teams.foldl (itl3OwnershipStep teams) []
    let itl2_own_base := itl2_to_teams.foldl
      (itl2OwnershipStep teams (doBiggerShading teams) itl2_to_itl3s itl3_ownership) []
    let itl2_ownership := itl2_to_teams.foldl
      (itl2EnhanceStep teams itl2_to_itl3s itl2_to_itl1 itl1_to_itl2s itl3_ownership)
      itl2_own_base
    let itl1_ownership := itl1_to_teams.foldl
      (itl1OwnershipStep teams (doBiggerShading teams) itl1_to_itl2s itl2_ownership) []
    let itl3_to_itl2 := itl_hierarchy.itl3_to_itl2
    let itl2_leagues := itl2_ownership.foldl (itl2FilterStep itl2_to_itl1 itl1_ownership) []
    let itl3_leagues := itl3_ownership.foldl
      (itl3FilterStep itl3_to_itl2 itl2_to_itl1 itl2_ownership itl1_ownership) []
    let itl3_multi_league := itl3_to_teams.foldl
      (itl3MultiStep teams itl3_ownership itl3_to_itl2 itl2_to_itl1 itl2_ownership
        itl1_ownership) []
    { itl0 := [], itl1 := itl1_ownership, itl2 := itl2_leagues,
      itl3 := itl3_leagues, itl3_multi_league := itl3_multi_league }

/-- One level of the region loop in `collect_league_geometries_for_tier`:
append each colored region's geometry to its league's list, skipping
multi-league ITL3 regions (the `skip` list is empty at the other levels). -/
def levelPassStep {G : Type} (skip : List String)
    (level_colors : List (String × String))
    (league_geometries : List (String × List G)) (p : String × G) :
    List (String × List G) :=
  if skip.contains p.1 then league_geometries
  else
    match alookup level_colors p.1 with
    | some league => alAppend league_geometries league p.2
    | none => league_geometries

def levelPass {G : Type} (skip : List String)
    (level_colors : List (String × String)) (level_regions : List (String × G))
    (acc : List (String × List G)) : List (String × List G) :=
  if level_colors.isEmpty then acc
  else level_regions.foldl (levelPassStep skip level_colors) acc

/-- One iteration of the multi-league-ITL3 loop in
`collect_league_geometries_for_tier`: gather the tier teams of the region,
widen to every tier team whose league appears in the parent ITL2, and add
the LAD-based split pieces to their leagues. -/
def collectLadStep {G : Type} (ops : GeomOps G)
    (voronoi : List (Rat × Rat) → VorDiagram) (teams : List MapTeam)
    (region_to_teams : RegionToTeams) (itl_hierarchy : ITLHierarchy G)
    (league_colors : String → String)
    (acc : List (String × List G)) (region_name : String) : List (String × List G) :=
  let teams_in_region := tierTeams teams ((alookup region_to_teams.itl3 region_name).getD [])
  if 2 ≤ teams_in_region.length then
    let parent_itl2 := pyTruthy (alookup itl_hierarchy.itl3_to_itl2 region_name)
    let leagues_in_itl2 :=
      match parent_itl2 with
      | some q => leaguesOf (tierTeams teams ((alookup region_to_teams.itl2 q).getD []))
      | none => []
    let teams_for_split := teams.filter (fun t => leagues_in_itl2.contains t.league)
    if 2 ≤ teams_for_split.length then
      (create_lad_based_split ops voronoi teams_for_split region_name itl_hierarchy
        league_colors).foldl
        (fun league_geometries cell => alAppend league_geometries cell.league cell.geom) acc
    else acc
  else acc

/-- `collect_league_geometries_for_tier(teams, region_to_teams,
itl_hierarchy, league_colors)`: color the regions, emit the geometry of
every colored region at every level (multi-league ITL3s excepted), then
add the LAD-based split pieces of the multi-league ITL3s. -/
def collect_league_geometries_for_tier {G : Type} (ops : GeomOps G)
    (voronoi : List (Rat × Rat) → VorDiagram) (teams : List MapTeam)
    (region_to_teams : RegionToTeams) (itl_hierarchy : ITLHierarchy G)
    (league_colors : String → String) : List (String × List G) :=
  let region_colors := color_regions_by_league teams region_to_teams itl_hierarchy
  let multi_league_regions := region_colors.itl3_multi_league
  let lg0 := levelPass [] region_colors.itl0 itl_hierarchy.itl0_regions []
  let lg1 := levelPass [] region_colors.itl1 itl_hierarchy.itl1_regions lg0
  let lg2 := levelPass [] region_colors.itl2 itl_hierarchy.itl2_regions lg1
  let lg3 := levelPass multi_league_regions region_colors.itl3 itl_hierarchy.itl3_regions lg2
  if multi_league_regions.isEmpty then lg3
  else multi_league_regions.foldl
    (collectLadStep ops voronoi teams region_to_teams itl_hierarchy league_colors) lg3

/-! Basic lemmas about the dict model. -/

theorem alookup_nil {V : Type} (k : String) : alookup ([] : List (String × V)) k = none := rfl

theorem foldl_fixed {α β : Type} (f : α → β → α) (init : α) (l : List β)
    (h : ∀ acc x, f acc x = acc) : l.foldl f init = init := by
  induction l generalizing init with
  | nil => rfl
  | cons x xs ih => rw [List.foldl_cons, h, ih]

theorem tierTeams_nil (l : List MapTeam) : tierTeams [] l = [] := by
  simp [tierTeams]

/-- With no teams, every ownership step is the identity, so
`color_regions_by_league` returns the all-empty coloring. -/
theorem color_regions_by_league_nil {G : Type} (region_to_teams : RegionToTeams)
    (itl_hierarchy : ITLHierarchy G) :
    color_regions_by_league [] region_to_teams itl_hierarchy =
      { itl0 := [], itl1 := [], itl2 := [], itl3 := [], itl3_multi_league := [] } := by
  unfold color_regions_by_league
  have hshade : doNationalShading [] = false := rfl
  rw [hshade]
  simp only [Bool.false_and, Bool.false_eq_true, if_false]
  have h3 : region_to_teams.itl3.foldl (itl3OwnershipStep []) [] = [] := by
    apply foldl_fixed
    intro acc p
    simp [itl3OwnershipStep, tierTeams_nil]
  have h2 : ∀ init, region_to_teams.itl2.foldl
      (itl2OwnershipStep [] (doBiggerShading []) itl_hierarchy.itl2_to_itl3s []) init = init := by
    intro init
    apply foldl_fixed
    intro acc p
    simp [itl2OwnershipStep, tierTeams_nil]
  have h25 : ∀ init, region_to_teams.itl2.foldl
      (itl2EnhanceStep [] itl_hierarchy.itl2_to_itl3s itl_hierarchy.itl2_to_itl1
        itl_hierarchy.itl1_to_itl2s []) init = init := by
    intro init
    apply foldl_fixed
    intro acc p
    simp [itl2EnhanceStep, tierTeams_nil]
  have h1 : ∀ own2, region_to_teams.itl1.foldl
      (itl1OwnershipStep [] (doBiggerShading []) itl_hierarchy.itl1_to_itl2s own2) [] = [] := by
    intro own2
    apply foldl_fixed
    intro acc p
    simp [itl1OwnershipStep, tierTeams_nil]
  rw [h3, h2, h25, h1]
  have hmulti : region_to_teams.itl3.foldl
      (itl3MultiStep [] [] itl_hierarchy.itl3_to_itl2 itl_hierarchy.itl2_to_itl1 [] []) [] = [] := by
    apply foldl_fixed
    intro acc p
    simp [itl3MultiStep, tierTeams_nil, alookup_nil]
  simp [hmulti]

/-- C7: with an empty team list `collect_league_geometries_for_tier`
returns the empty mapping (no geometry contribution for any league) and,
being total, raises no error: the coloring is empty at every level, every
level pass is skipped, and there are no multi-league regions to split. -/
theorem collect_league_geometries_empty_tier {G : Type} (ops : GeomOps G)
    (voronoi : List (Rat × Rat) → VorDiagram) (region_to_teams : RegionToTeams)
    (itl_hierarchy : ITLHierarchy G) (league_colors : String → String) :
    collect_league_geometries_for_tier ops voronoi [] region_to_teams itl_hierarchy
      league_colors = [] := by
  unfold collect_league_geometries_for_tier
  rw [color_regions_by_league_nil]
  simp [levelPass]

/-- C8: the partitioner is a pure function of its inputs, so two
invocations with identical inputs return identical per-league geometry
lists. -/
theorem collect_league_geometries_deterministic {G : Type} (ops₁ ops₂ : GeomOps G)
    (voronoi₁ voronoi₂ : List (Rat × Rat) → VorDiagram)
    (teams₁ teams₂ : List MapTeam) (rtt₁ rtt₂ : RegionToTeams)
    (hier₁ hier₂ : ITLHierarchy G) (colors₁ colors₂ : String → String)
    (hops : ops₁ = ops₂) (hvor : voronoi₁ = voronoi₂) (hteams : teams₁ = teams₂)
    (hrtt : rtt₁ = rtt₂) (hhier : hier₁ = hier₂) (hcolors : colors₁ = colors₂) :
    collect_league_geometries_for_tier ops₁ voronoi₁ teams₁ rtt₁ hier₁ colors₁ =
      collect_league_geometries_for_tier ops₂ voronoi₂ teams₂ rtt₂ hier₂ colors₂ := by
  subst hops hvor hteams hrtt hhier hcolors
  rfl

/-- Closed instance of `collect_league_geometries_deterministic`. -/
theorem collect_league_geometries_deterministic_witness :
    collect_league_geometries_for_tier
        { containsTeam := fun _ _ => false, centroidDist := fun _ _ => 0,
          bounds := fun _ => (0, 0, 0, 0), mkPolygon := fun _ => 0,
          intersection := fun a _ => a, isEmpty := fun _ => true, area := fun _ => 0,
          unaryUnion := fun _ => 0 }
        (fun _ => ⟨[], [], []⟩)
        [{ name := "T", league := "L", tier := "Counties 1", latitude := 0, longitude := 0 }]
        { itl1 := [], itl2 := [], itl3 := [] }
        { itl0_regions := [], itl1_regions := [], itl2_regions := [], itl3_regions := [],
          lad_regions := fun _ => 0, ward_regions := fun _ => 0, itl3_to_itl2 := [],
          itl2_to_itl1 := [], itl1_to_itl2s := [], itl2_to_itl3s := [], itl3_to_lads := [],
          lad_to_wards := [] }
        (fun _ => "c") =
      collect_league_geometries_for_tier
        { containsTeam := fun _ _ => false, centroidDist := fun _ _ => 0,
          bounds := fun _ => (0, 0, 0, 0), mkPolygon := fun _ => 0,
          intersection := fun a _ => a, isEmpty := fun _ => true, area := fun _ => 0,
          unaryUnion := fun _ => 0 }
        (fun _ => ⟨[], [], []⟩)
        [{ name := "T", league := "L", tier := "Counties 1", latitude := 0, longitude := 0 }]
        { itl1 := [], itl2 := [], itl3 := [] }
        { itl0_regions := [], itl1_regions := [], itl2_regions := [], itl3_regions := [],
          lad_regions := fun _ => 0, ward_regions := fun _ => 0, itl3_to_itl2 := [],
          itl2_to_itl1 := [], itl1_to_itl2s := [], itl2_to_itl3s := [], itl3_to_lads := [],
          lad_to_wards := [] }
        (fun _ => "c") :=
  collect_league_geometries_deterministic _ _ _ _ _ _ _ _ _ _ _ _
    rfl rfl rfl rfl rfl rfl

/-- C4: with fewer than two teams `create_bounded_voronoi` returns the
empty list; the guard fires before the bounding box, corner points,
Voronoi diagram or any geometry operation is touched, so no exception can
arise from this branch. -/
theorem create_bounded_voronoi_degenerate {G : Type} (ops : GeomOps G)
    (voronoi : List (Rat × Rat) → VorDiagram) (teams : List MapTeam)
    (boundary_geom : G) (league_colors : String → String)
    (hlen : teams.length < 2) :
    create_bounded_voronoi ops voronoi teams boundary_geom league_colors = [] := by
  unfold create_bounded_voronoi
  rw [if_pos hlen]

/-- Closed instance of `create_bounded_voronoi_degenerate` at a
one-element team list. -/
theorem create_bounded_voronoi_degenerate_witness :
    create_bounded_voronoi
        { containsTeam := fun _ _ => false, centroidDist := fun _ _ => 0,
          bounds := fun _ => (0, 0, 0, 0), mkPolygon := fun _ => 0,
          intersection := fun a _ => a, isEmpty := fun _ => true, area := fun _ => 0,
          unaryUnion := fun _ => 0 }
        (fun _ => ⟨[], [], []⟩)
        [{ name := "T", league := "L", tier := "Counties 1", latitude := 0, longitude := 0 }]
        (3 : Nat) (fun _ => "c") = [] :=
  create_bounded_voronoi_degenerate _ _ _ _ _ (by decide)

/-- C9: when `itl3_to_lads` enumerates no LADs for a region,
`create_lad_based_split` returns `[]` (before any ward or Voronoi work),
and the corresponding iteration of the multi-league loop of
`collect_league_geometries_for_tier` leaves the accumulated league
geometries unchanged — the region contributes nothing to any league. -/
theorem create_lad_based_split_no_lads {G : Type} (ops : GeomOps G)
    (voronoi : List (Rat × Rat) → VorDiagram) (teams : List MapTeam)
    (itl3_region_name : String) (itl_hierarchy : ITLHierarchy G)
    (league_colors : String → String) (region_to_teams : RegionToTeams)
    (acc : List (String × List G))
    (hl : (alookup itl_hierarchy.itl3_to_lads itl3_region_name).getD [] = []) :
    create_lad_based_split ops voronoi teams itl3_region_name itl_hierarchy
        league_colors = [] ∧
    collectLadStep ops voronoi teams region_to_teams itl_hierarchy league_colors
        acc itl3_region_name = acc := by
  have hsplit : ∀ ts, create_lad_based_split ops voronoi ts itl3_region_name
      itl_hierarchy league_colors = [] := by
    intro ts
    unfold create_lad_based_split
    by_cases h : ts.length < 2
    · rw [if_pos h]
    · rw [if_neg h]
      simp [hl]
  refine ⟨hsplit teams, ?_⟩
  unfold collectLadStep
  by_cases h2 : 2 ≤ (tierTeams teams
      ((alookup region_to_teams.itl3 itl3_region_name).getD [])).length
  · rw [if_pos h2]
    by_cases h3 : 2 ≤ (teams.filter (fun t =>
        (match pyTruthy (alookup itl_hierarchy.itl3_to_itl2 itl3_region_name) with
          | some q => leaguesOf (tierTeams teams ((alookup region_to_teams.itl2 q).getD []))
          | none => []).contains t.league)).length
    · rw [if_pos h3, hsplit]
      rfl
    · rw [if_neg h3]
  · rw [if_neg h2]

/-- Closed instance of `create_lad_based_split_no_lads`. -/
theorem create_lad_based_split_no_lads_witness :
    create_lad_based_split
        { containsTeam := fun _ _ => false, centroidDist := fun _ _ => 0,
          bounds := fun _ => (0, 0, 0, 0), mkPolygon := fun _ => 0,
          intersection := fun a _ => a, isEmpty := fun _ => true, area := fun _ => 0,
          unaryUnion := fun _ => 0 }
        (fun _ => ⟨[], [], []⟩)
        [{ name := "T", league := "L", tier := "Counties 1", latitude := 0, longitude := 0 },
         { name := "U", league := "M", tier := "Counties 1", latitude := 1, longitude := 1 }]
        "Cornwall"
        { itl0_regions := [], itl1_regions := [], itl2_regions := [], itl3_regions := [],
          lad_regions := fun _ => 0, ward_regions := fun _ => 0, itl3_to_itl2 := [],
          itl2_to_itl1 := [], itl1_to_itl2s := [], itl2_to_itl3s := [],
          itl3_to_lads := [("Devon", ["Exeter"])], lad_to_wards := [] }
        (fun _ => "c") = [] :=
  (create_lad_based_split_no_lads _ _ _ _ _ _
    { itl1 := [], itl2 := [], itl3 := [] } [] (by decide)).1

/-- C6: the point locator only descends through the found parent's
children and stops when a level fails: a team contained in no ITL1 region
gets no assignment at all, a missing ITL2 leaves ITL3 null, an assigned
ITL2 is among the children (`itl1_to_itl2s`) of the assigned ITL1, and an
assigned ITL3 is among the children (`itl2_to_itl3s`) of the assigned
ITL2. -/
theorem assign_team_descends_hierarchy {G : Type} (contains : G → MapTeam → Bool)
    (itl1_regions : List (String × G)) (itl2_regions itl3_regions : String → G)
    (itl1_to_itl2s itl2_to_itl3s : List (String × List String)) (team : MapTeam)
    (r : ITLAssignment)
    (hr : r = assign_team_to_itl_regions contains itl1_regions itl2_regions itl3_regions
      itl1_to_itl2s itl2_to_itl3s team) :
    ((∀ p ∈ itl1_regions, contains p.2 team = false) →
        r = { itl1 := none, itl2 := none, itl3 := none }) ∧
    (r.itl1 = none → r.itl2 = none ∧ r.itl3 = none) ∧
    (r.itl2 = none → r.itl3 = none) ∧
    (∀ b, r.itl2 = some b →
        ∃ a, r.itl1 = some a ∧ b ∈ (alookup itl1_to_itl2s a).getD []) ∧
    (∀ c, r.itl3 = some c →
        ∃ b, r.itl2 = some b ∧ c ∈ (alookup itl2_to_itl3s b).getD []) := by
  subst hr
  cases h1 : itl1_regions.find? (fun p => contains p.2 team) with
  | none =>
    have hres : assign_team_to_itl_regions contains itl1_regions itl2_regions itl3_regions
        itl1_to_itl2s itl2_to_itl3s team = { itl1 := none, itl2 := none, itl3 := none } := by
      unfold assign_team_to_itl_regions
      simp only [h1]
    rw [hres]
    refine ⟨fun _ => rfl, fun _ => ⟨rfl, rfl⟩, fun _ => rfl, ?_, ?_⟩
    · intro b hb
      simp at hb
    · intro c hc
      simp at hc
  | some p1 =>
    have hno : ¬ (∀ p ∈ itl1_regions, contains p.2 team = false) := by
      intro hall
      have hmem := List.mem_of_find?_eq_some h1
      have hp := List.find?_some h1
      rw [hall p1 hmem] at hp
      exact Bool.false_ne_true hp
    cases h2 : ((alookup itl1_to_itl2s p1.1).getD []).find?
        (fun n => contains (itl2_regions n) team) with
    | none =>
      have hres : assign_team_to_itl_regions contains itl1_regions itl2_regions itl3_regions
          itl1_to_itl2s itl2_to_itl3s team =
          { itl1 := some p1.1, itl2 := none, itl3 := none } := by
        unfold assign_team_to_itl_regions
        simp only [h1, h2]
      rw [hres]
      refine ⟨fun hall => absurd hall hno, ?_, fun _ => rfl, ?_, ?_⟩
      · intro habs
        simp at habs
      · intro b hb
        simp at hb
      · intro c hc
        simp at hc
    | some n2 =>
      cases h3 : ((alookup itl2_to_itl3s n2).getD []).find?
          (fun n => contains (itl3_regions n) team) with
      | none =>
        have hres : assign_team_to_itl_regions contains itl1_regions itl2_regions itl3_regions
            itl1_to_itl2s itl2_to_itl3s team =
            { itl1 := some p1.1, itl2 := some n2, itl3 := none } := by
          unfold assign_team_to_itl_regions
          simp only [h1, h2, h3]
        rw [hres]
        refine ⟨fun hall => absurd hall hno, ?_, fun _ => rfl, ?_, ?_⟩
        · intro habs
          simp at habs
        · intro b hb
          simp at hb
          subst hb
          exact ⟨p1.1, rfl, List.mem_of_find?_eq_some h2⟩
        · intro c hc
          simp at hc
      | some n3 =>
        have hres : assign_team_to_itl_regions contains itl1_regions itl2_regions itl3_regions
            itl1_to_itl2s itl2_to_itl3s team =
            { itl1 := some p1.1, itl2 := some n2, itl3 := some n3 } := by
          unfold assign_team_to_itl_regions
          simp only [h1, h2, h3]
        rw [hres]
        refine ⟨fun hall => absurd hall hno, ?_, ?_, ?_, ?_⟩
        · intro habs
          simp at habs
        · intro habs
          simp at habs
        · intro b hb
          simp at hb
          subst hb
          exact ⟨p1.1, rfl, List.mem_of_find?_eq_some h2⟩
        · intro c hc
          simp at hc
          subst hc
          exact ⟨n2, rfl, List.mem_of_find?_eq_some h3⟩

/-- Closed instance of `assign_team_descends_hierarchy`: the assigned ITL3
of a concrete team is listed among the children of its assigned ITL2. -/
theorem assign_team_descends_hierarchy_witness :
    ∃ b, (assign_team_to_itl_regions (fun (g : Nat) _ => g == 1)
        [("A0", 0), ("A1", 1)]
        (fun n => if n == "B2" then 1 else 0) (fun n => if n == "C3" then 1 else 0)
        [("A1", ["B1", "B2"])] [("B2", ["C0", "C3"])]
        { name := "T", league := "L", tier := "Counties 1", latitude := 0,
          longitude := 0 }).itl2 = some b ∧
      "C3" ∈ (alookup [("B2", ["C0", "C3"])] b).getD [] :=
  (assign_team_descends_hierarchy (fun (g : Nat) _ => g == 1)
    [("A0", 0), ("A1", 1)]
    (fun n => if n == "B2" then 1 else 0) (fun n => if n == "C3" then 1 else 0)
    [("A1", ["B1", "B2"])] [("B2", ["C0", "C3"])]
    { name := "T", league := "L", tier := "Counties 1", latitude := 0, longitude := 0 }
    _ rfl).2.2.2.2 "C3" (by decide)

/-- C2 (amended): for the national-shading tiers (Premiership,
Championship, National League 1, Premiership Women's), a tier whose teams
all belong to one league short-circuits: `color_regions_by_league`
returns the single whole-country piece England ↦ league and computes no
finer-level ownership at all. -/
theorem color_regions_single_league_shortcut {G : Type} (teams : List MapTeam)
    (region_to_teams : RegionToTeams) (itl_hierarchy : ITLHierarchy G) (lg : String)
    (hshade : doNationalShading teams = true)
    (hleagues : allLeagues teams = [lg]) :
    color_regions_by_league teams region_to_teams itl_hierarchy =
      { itl0 := [("England", lg)], itl1 := [], itl2 := [], itl3 := [],
        itl3_multi_league := [] } := by
  unfold color_regions_by_league
  rw [hshade, hleagues]
  simp

/-- A two-team Premiership-tier instance of
`color_regions_single_league_shortcut`. -/
theorem color_regions_single_league_shortcut_witness :
    color_regions_by_league
        [{ name := "T", league := "L", tier := "Premiership", latitude := 0, longitude := 0 },
         { name := "U", league := "L", tier := "Premiership", latitude := 1, longitude := 1 }]
        { itl1 := [], itl2 := [], itl3 := [] }
        ({ itl0_regions := [], itl1_regions := [], itl2_regions := [], itl3_regions := [],
           lad_regions := fun _ => 0, ward_regions := fun _ => 0, itl3_to_itl2 := [],
           itl2_to_itl1 := [], itl1_to_itl2s := [], itl2_to_itl3s := [], itl3_to_lads := [],
           lad_to_wards := [] } : ITLHierarchy Nat) =
      { itl0 := [("England", "L")], itl1 := [], itl2 := [], itl3 := [],
        itl3_multi_league := [] } :=
  color_regions_single_league_shortcut _ _ _ "L" (by decide) (by decide)

/-- The total number of region-to-league assignments in a coloring. -/
def piecesCount (rc : LeagueRegionColors) : Nat :=
  rc.itl0.length + rc.itl1.length + rc.itl2.length + rc.itl3.length

/-- First team of the C2 counterexample. -/
def c2t1 : MapTeam :=
  { name := "T", league := "L", tier := "Counties 1", latitude := 0, longitude := 0 }

/-- Second team of the C2 counterexample. -/
def c2t2 : MapTeam :=
  { name := "U", league := "L", tier := "Counties 1", latitude := 1, longitude := 1 }

/-- A single-league tier of a non-national tier name ("Counties 1"): two
teams of league "L" in two different ITL1 branches. -/
def c2teams : List MapTeam := [c2t1, c2t2]

/-- Hierarchy for the C2 counterexample: two ITL1 regions C1, C2, each
with one ITL2 (B1, B2) holding one ITL3 (A1, A2). -/
def c2hier : ITLHierarchy Nat :=
  { itl0_regions := [], itl1_regions := [("C1", 10), ("C2", 11)],
    itl2_regions := [("B1", 20), ("B2", 21)],
    itl3_regions := [("A1", 30), ("A2", 31)],
    lad_regions := fun _ => 0, ward_regions := fun _ => 0,
    itl3_to_itl2 := [("A1", "B1"), ("A2", "B2")],
    itl2_to_itl1 := [("B1", "C1"), ("B2", "C2")],
    itl1_to_itl2s := [("C1", ["B1"]), ("C2", ["B2"])],
    itl2_to_itl3s := [("B1", ["A1"]), ("B2", ["A2"])],
    itl3_to_lads := [], lad_to_wards := [] }

/-- Region-to-teams maps for the C2 counterexample: the first team sits in
A1 ⊂ B1 ⊂ C1, the second in A2 ⊂ B2 ⊂ C2. -/
def c2rtt : RegionToTeams :=
  { itl1 := [("C1", [c2t1]), ("C2", [c2t2])],
    itl2 := [("B1", [c2t1]), ("B2", [c2t2])],
    itl3 := [("A1", [c2t1]), ("A2", [c2t2])] }

/-- C2 (counterexample): a tier whose teams all belong to one league but
whose tier name is not one of the national-shading tiers does not get the
single-piece shortcut: the coloring consists of two separate ITL1 pieces
and no whole-entry-region piece. -/
theorem color_regions_single_league_no_shortcut :
    allLeagues c2teams = ["L"] ∧
    (color_regions_by_league c2teams c2rtt c2hier).itl0 = [] ∧
    (color_regions_by_league c2teams c2rtt c2hier).itl1 = [("C1", "L"), ("C2", "L")] ∧
    piecesCount (color_regions_by_league c2teams c2rtt c2hier) = 2 := by
  decide

/-- The fold inside `minBy` keeps the first element attaining the least
key: the result is below every list element and below the running best,
and is either the initial best or a list element strictly better than the
initial best and than everything before it. -/
theorem minFold_spec {α : Type} (f : α → Rat) (xs : List α) : ∀ best : α,
    (∀ y ∈ xs, f (xs.foldl (fun b z => if f z < f b then z else b) best) ≤ f y) ∧
    f (xs.foldl (fun b z => if f z < f b then z else b) best) ≤ f best ∧
    (xs.foldl (fun b z => if f z < f b then z else b) best = best ∨
      (f (xs.foldl (fun b z => if f z < f b then z else b) best) < f best ∧
        ∃ pre post,
          xs = pre ++ xs.foldl (fun b z => if f z < f b then z else b) best :: post ∧
          ∀ y ∈ pre, f (xs.foldl (fun b z => if f z < f b then z else b) best) < f y)) := by
  induction xs with
  | nil =>
    intro best
    exact ⟨by simp, le_refl _, Or.inl rfl⟩
  | cons y ys ih =>
    intro best
    simp only [List.foldl_cons]
    by_cases hy : f y < f best
    · rw [if_pos hy]
      obtain ⟨h1, h2, h3⟩ := ih y
      refine ⟨?_, le_trans h2 (le_of_lt hy), ?_⟩
      · intro z hz
        rcases List.mem_cons.mp hz with hz | hz
        · rw [hz]
          exact h2
        · exact h1 z hz
      · rcases h3 with h3 | ⟨hlt, pre, post, heq, hpre⟩
        · refine Or.inr ⟨?_, [], ys, ?_, by simp⟩
          · rw [h3]
            exact hy
          · rw [h3]
            rfl
        · refine Or.inr ⟨lt_trans hlt hy, y :: pre, post, ?_, ?_⟩
          · rw [List.cons_append, ← heq]
          · intro z hz
            rcases List.mem_cons.mp hz with hz | hz
            · rw [hz]
              exact hlt
            · exact hpre z hz
    · rw [if_neg hy]
      push_neg at hy
      obtain ⟨h1, h2, h3⟩ := ih best
      refine ⟨?_, h2, ?_⟩
      · intro z hz
        rcases List.mem_cons.mp hz with hz | hz
        · rw [hz]
          exact le_trans h2 hy
        · exact h1 z hz
      · rcases h3 with h3 | ⟨hlt, pre, post, heq, hpre⟩
        · exact Or.inl h3
        · refine Or.inr ⟨hlt, y :: pre, post, ?_, ?_⟩
          · rw [List.cons_append, ← heq]
          · intro z hz
            rcases List.mem_cons.mp hz with hz | hz
            · rw [hz]
              exact lt_of_lt_of_le hlt hy
            · exact hpre z hz

/-- `minBy f l = some m` characterizes Python's `min(l, key=f)`: `m` is a
least element of `l` and everything strictly before `m` in `l` has a
strictly larger key (ties go to the earliest element). -/
theorem minBy_spec {α : Type} (f : α → Rat) (l : List α) (m : α)
    (h : minBy f l = some m) :
    (∀ y ∈ l, f m ≤ f y) ∧
      ∃ pre post, l = pre ++ m :: post ∧ ∀ y ∈ pre, f m < f y := by
  cases l with
  | nil => simp [minBy] at h
  | cons x xs =>
    simp only [minBy, Option.some.injEq] at h
    obtain ⟨h1, h2, h3⟩ := minFold_spec f xs x
    rw [h] at h1 h2 h3
    refine ⟨?_, ?_⟩
    · intro z hz
      rcases List.mem_cons.mp hz with hz | hz
      · rw [hz]
        exact h2
      · exact h1 z hz
    · rcases h3 with h3 | ⟨hlt, pre, post, heq, hpre⟩
      · refine ⟨[], xs, ?_, by simp⟩
        rw [h3]
        rfl
      · refine ⟨x :: pre, post, ?_, ?_⟩
        · rw [List.cons_append, ← heq]
        · intro z hz
          rcases List.mem_cons.mp hz with hz | hz
          · rw [hz]
            exact hlt
          · exact hpre z hz

/-- C5: a LAD containing none of the teams handed to
`create_lad_based_split` is assigned whole to the league of the team
nearest to the LAD's centroid, and a ward containing none of the
surrounding LAD's teams is assigned whole to the league of the nearest
LAD team; in both cases the chosen team is a distance minimizer and every
earlier team in the input list is strictly farther, so ties are broken by
input order and the result is deterministic (the splitter is a pure
function). -/
theorem empty_child_region_nearest_fallback {G : Type} (ops : GeomOps G)
    (voronoi : List (Rat × Rat) → VorDiagram) (itl_hierarchy : ITLHierarchy G)
    (league_colors : String → String) (teams teams_in_lad : List MapTeam)
    (lad_name ward_name : String) :
    (∀ m, teams.filter (fun t =>
        ops.containsTeam (itl_hierarchy.lad_regions lad_name) t) = [] →
      minBy (fun t => ops.centroidDist (itl_hierarchy.lad_regions lad_name) t) teams =
        some m →
      processLad ops voronoi itl_hierarchy league_colors teams lad_name =
        [{ geom := itl_hierarchy.lad_regions lad_name,
           color := league_colors m.league, league := m.league }] ∧
      (∀ y ∈ teams, ops.centroidDist (itl_hierarchy.lad_regions lad_name) m ≤
        ops.centroidDist (itl_hierarchy.lad_regions lad_name) y) ∧
      (∃ pre post, teams = pre ++ m :: post ∧ ∀ y ∈ pre,
        ops.centroidDist (itl_hierarchy.lad_regions lad_name) m <
          ops.centroidDist (itl_hierarchy.lad_regions lad_name) y)) ∧
    (∀ m, teams_in_lad.filter (fun t =>
        ops.containsTeam (itl_hierarchy.ward_regions ward_name) t) = [] →
      minBy (fun t => ops.centroidDist (itl_hierarchy.ward_regions ward_name) t)
        teams_in_lad = some m →
      processWard ops voronoi itl_hierarchy league_colors teams_in_lad ward_name =
        [{ geom := itl_hierarchy.ward_regions ward_name,
           color := league_colors m.league, league := m.league }] ∧
      (∀ y ∈ teams_in_lad, ops.centroidDist (itl_hierarchy.ward_regions ward_name) m ≤
        ops.centroidDist (itl_hierarchy.ward_regions ward_name) y) ∧
      (∃ pre post, teams_in_lad = pre ++ m :: post ∧ ∀ y ∈ pre,
        ops.centroidDist (itl_hierarchy.ward_regions ward_name) m <
          ops.centroidDist (itl_hierarchy.ward_regions ward_name) y)) := by
  constructor
  · intro m hfilter hmin
    obtain ⟨hle, hdecomp⟩ := minBy_spec _ _ _ hmin
    refine ⟨?_, hle, hdecomp⟩
    simp only [processLad]
    rw [hfilter]
    simp only [List.isEmpty_nil, if_true]
    rw [hmin]
  · intro m hfilter hmin
    obtain ⟨hle, hdecomp⟩ := minBy_spec _ _ _ hmin
    refine ⟨?_, hle, hdecomp⟩
    simp only [processWard]
    rw [hfilter]
    simp only [List.isEmpty_nil, if_true]
    rw [hmin]

/-- Team of league Red used in the C5 witness. -/
def w5t1 : MapTeam :=
  { name := "T1", league := "Red", tier := "Counties 1", latitude := 0, longitude := 0 }

/-- Team of league Blue used in the C5 witness, equidistant from the LAD
centroid. -/
def w5t2 : MapTeam :=
  { name := "T2", league := "Blue", tier := "Counties 1", latitude := 2, longitude := 2 }

/-- Geometry oracle of the C5 witness: no containment, all centroid
distances equal (a tie). -/
def w5ops : GeomOps Nat :=
  { containsTeam := fun _ _ => false, centroidDist := fun _ _ => 1,
    bounds := fun _ => (0, 0, 0, 0), mkPolygon := fun _ => 0,
    intersection := fun a _ => a, isEmpty := fun _ => true, area := fun _ => 0,
    unaryUnion := fun _ => 0 }

/-- Hierarchy of the C5 witness. -/
def w5hier : ITLHierarchy Nat :=
  { itl0_regions := [], itl1_regions := [], itl2_regions := [], itl3_regions := [],
    lad_regions := fun _ => 7, ward_regions := fun _ => 8, itl3_to_itl2 := [],
    itl2_to_itl1 := [], itl1_to_itl2s := [], itl2_to_itl3s := [], itl3_to_lads := [],
    lad_to_wards := [] }

/-- Closed instance of `empty_child_region_nearest_fallback`: a LAD with
no contained teams and two equidistant inherited teams is assigned to the
first team in input order. -/
theorem empty_child_region_nearest_fallback_witness :
    processLad w5ops (fun _ => ⟨[], [], []⟩) w5hier (fun _ => "c") [w5t1, w5t2] "Dartmoor" =
      [{ geom := w5hier.lad_regions "Dartmoor", color := (fun _ => "c") w5t1.league,
         league := w5t1.league }] ∧
    (∀ y ∈ [w5t1, w5t2], w5ops.centroidDist (w5hier.lad_regions "Dartmoor") w5t1 ≤
      w5ops.centroidDist (w5hier.lad_regions "Dartmoor") y) ∧
    (∃ pre post, [w5t1, w5t2] = pre ++ w5t1 :: post ∧ ∀ y ∈ pre,
      w5ops.centroidDist (w5hier.lad_regions "Dartmoor") w5t1 <
        w5ops.centroidDist (w5hier.lad_regions "Dartmoor") y) :=
  (empty_child_region_nearest_fallback w5ops (fun _ => ⟨[], [], []⟩) w5hier (fun _ => "c")
    [w5t1, w5t2] [] "Dartmoor" "W").1 w5t1 (by decide) (by decide)

/-! Lemmas characterizing the dict model. -/

theorem alookup_cons {V : Type} (p : String × V) (ps : List (String × V)) (k : String) :
    alookup (p :: ps) k = if p.1 == k then some p.2 else alookup ps k := by
  unfold alookup
  cases hpk : (p.1 == k) with
  | true => simp [List.find?_cons, hpk]
  | false => simp [List.find?_cons, hpk]


theorem alookup_map_update {V : Type} (m : List (String × List V)) (k k2 : String) (v : V) :
    alookup (m.map (fun p => if p.1 == k2 then (p.1, p.2 ++ [v]) else p)) k =
      if k = k2 then (alookup m k).map (fun l => l ++ [v]) else alookup m k := by
  induction m with
  | nil => by_cases h : k = k2 <;> simp [alookup, h]
  | cons p ps ih =>
    simp only [List.map_cons]
    by_cases hp2 : p.1 = k2
    · have hb2 : (p.1 == k2) = true := by simp [hp2]
      rw [if_pos hb2, alookup_cons]
      by_cases hpk : p.1 = k
      · have hbk : (p.1 == k) = true := by simp [hpk]
        have hk : k = k2 := by rw [← hpk, hp2]
        rw [if_pos hbk, if_pos hk, alookup_cons, if_pos hbk]
        rfl
      · have hbk : ¬ ((p.1 == k) = true) := by simp [hpk]
        have hk : ¬ k = k2 := fun h => hpk (hp2.trans h.symm)
        rw [if_neg hbk, ih, if_neg hk, alookup_cons, if_neg hbk, if_neg hk]
    · have hb2 : ¬ ((p.1 == k2) = true) := by simp [hp2]
      rw [if_neg hb2, alookup_cons]
      by_cases hpk : p.1 = k
      · have hbk : (p.1 == k) = true := by simp [hpk]
        have hk : ¬ k = k2 := fun h => hp2 (hpk.trans h)
        rw [if_pos hbk, if_neg hk, alookup_cons, if_pos hbk]
      · have hbk : ¬ ((p.1 == k) = true) := by simp [hpk]
        rw [if_neg hbk, ih]
        by_cases hkk : k = k2
        · rw [if_pos hkk, if_pos hkk, alookup_cons, if_neg hbk]
        · rw [if_neg hkk, if_neg hkk, alookup_cons, if_neg hbk]

theorem alookup_append_single {V : Type} (m : List (String × V)) (k k2 : String) (v : V) :
    alookup (m ++ [(k2, v)]) k =
      match alookup m k with
      | some w => some w
      | none => if k = k2 then some v else none := by
  induction m with
  | nil =>
    by_cases h : k = k2
    · subst h
      simp [alookup, alookup_cons]
    · have hk : ¬ k2 = k := fun hh => h hh.symm
      simp [alookup, alookup_cons, h, hk]
  | cons p ps ih =>
    by_cases hpk : p.1 = k
    · subst hpk
      simp [alookup_cons]
    · simp only [List.cons_append, alookup_cons]
      have hbk : ¬ ((p.1 == k) = true) := by simp [hpk]
      rw [if_neg hbk, if_neg hbk, ih]

/-- The effect of `d.setdefault(k2, []).append(v)` on a lookup: the `k2`
entry grows by `v` (starting from `[]` when absent) and every other key is
untouched. -/
theorem alookup_alAppend {V : Type} (m : List (String × List V)) (k k2 : String) (v : V) :
    alookup (alAppend m k2 v) k =
      if k = k2 then some ((alookup m k2).getD [] ++ [v]) else alookup m k := by
  unfold alAppend
  by_cases hf : ((m.find? (fun p => p.1 == k2)).isSome : Prop)
  · rw [if_pos hf]
    obtain ⟨q, hq⟩ := Option.isSome_iff_exists.mp hf
    have hl : alookup m k2 = some q.2 := by
      unfold alookup
      rw [hq]
      rfl
    rw [alookup_map_update]
    by_cases hkk : k = k2
    · subst hkk
      rw [if_pos rfl, if_pos rfl, hl]
      rfl
    · rw [if_neg hkk, if_neg hkk]
  · rw [if_neg hf]
    have hnone : alookup m k2 = none := by
      rcases hfind : m.find? (fun p => p.1 == k2) with _ | w
      · unfold alookup
        rw [hfind]
        rfl
      · rw [hfind] at hf
        simp at hf
    rw [alookup_append_single]
    by_cases hkk : k = k2
    · subst hkk
      rw [hnone, if_pos rfl]
      rcases hmk : alookup m k with _ | w
      · simp
      · rw [hmk] at hnone
        simp at hnone
    · rw [if_neg hkk]
      rcases hmk : alookup m k with _ | w
      · simp [hkk]
      · rw [if_neg hkk]

/-- `hasGeom m k v`: the league-to-geometries dict `m` holds `v` in the
list of key `k`. -/
def hasGeom {V : Type} (m : List (String × List V)) (k : String) (v : V) : Prop :=
  ∃ l, alookup m k = some l ∧ v ∈ l

theorem hasGeom_alAppend_self {V : Type} (m : List (String × List V)) (k : String) (v : V) :
    hasGeom (alAppend m k v) k v := by
  refine ⟨(alookup m k).getD [] ++ [v], ?_, by simp⟩
  rw [alookup_alAppend, if_pos rfl]

theorem hasGeom_alAppend_mono {V : Type} (m : List (String × List V)) (k k2 : String)
    (v w : V) (h : hasGeom m k v) : hasGeom (alAppend m k2 w) k v := by
  obtain ⟨l, hl, hv⟩ := h
  by_cases hkk : k = k2
  · subst hkk
    refine ⟨(alookup m k).getD [] ++ [w], ?_, ?_⟩
    · rw [alookup_alAppend, if_pos rfl]
    · rw [hl]
      simp [hv]
  · exact ⟨l, by rw [alookup_alAppend, if_neg hkk]; exact hl, hv⟩

/-- Each iteration of the cell loop either drops the cell or appends one
clipped geometry to the owning team's league. -/
theorem voronoiCellStep_shape {G : Type} (ops : GeomOps G) (boundary_geom : G)
    (v : VorDiagram) (cells : List (String × List G)) (pt : Nat × MapTeam) :
    voronoiCellStep ops boundary_geom v cells pt = cells ∨
    ∃ g2, voronoiCellStep ops boundary_geom v cells pt = alAppend cells pt.2.league g2 := by
  simp only [voronoiCellStep]
  split
  · exact Or.inl rfl
  · split
    · exact Or.inl rfl
    · split
      · exact Or.inl rfl
      · split
        · exact Or.inr ⟨_, rfl⟩
        · exact Or.inl rfl

theorem voronoiCellStep_mono {G : Type} (ops : GeomOps G) (boundary_geom : G)
    (v : VorDiagram) (cells : List (String × List G)) (pt : Nat × MapTeam)
    (k : String) (g : G) (h : hasGeom cells k g) :
    hasGeom (voronoiCellStep ops boundary_geom v cells pt) k g := by
  rcases voronoiCellStep_shape ops boundary_geom v cells pt with hs | ⟨g2, hs⟩
  · rw [hs]
    exact h
  · rw [hs]
    exact hasGeom_alAppend_mono _ _ _ _ _ h

theorem voronoiCellFold_mono {G : Type} (ops : GeomOps G) (boundary_geom : G)
    (v : VorDiagram) (l : List (Nat × MapTeam)) (k : String) (g : G) :
    ∀ cells, hasGeom cells k g →
      hasGeom (l.foldl (voronoiCellStep ops boundary_geom v) cells) k g := by
  induction l with
  | nil => exact fun cells h => h
  | cons pt pts ih =>
    intro cells h
    exact ih _ (voronoiCellStep_mono ops boundary_geom v cells pt k g h)

/-- When every filter of the cell loop passes, the iteration records the
clipped cell under the team's league. -/
theorem voronoiCellStep_keep {G : Type} (ops : GeomOps G) (boundary_geom : G)
    (v : VorDiagram) (cells : List (String × List G)) (i : Nat) (t : MapTeam)
    (h1 : (cellRawVertices v i).isEmpty = false)
    (h2 : (cellRawVertices v i).contains (-1) = false)
    (h3 : ¬ ((cellVertices v i).length < 3))
    (h4 : ops.isEmpty (ops.intersection (ops.mkPolygon (cellVertices v i)) boundary_geom)
      = false)
    (h5 : 0 < ops.area (ops.intersection (ops.mkPolygon (cellVertices v i)) boundary_geom)) :
    voronoiCellStep ops boundary_geom v cells (i, t) =
      alAppend cells t.league
        (ops.intersection (ops.mkPolygon (cellVertices v i)) boundary_geom) := by
  simp only [voronoiCellStep]
  rw [if_neg (by rw [h1]; simp), if_neg (by rw [h2]; simp), if_neg h3,
    if_pos (by rw [h4]; simp [h5])]

theorem voronoiEmit_mono {G : Type} (ops : GeomOps G) (league_colors : String → String)
    (m : List (String × List G)) (k : String) :
    ∀ res, k ∈ res.map (fun e => e.league) →
      k ∈ (m.foldl (voronoiEmitStep ops league_colors) res).map (fun e => e.league) := by
  induction m with
  | nil => exact fun res h => h
  | cons p ps ih =>
    intro res h
    apply ih
    unfold voronoiEmitStep
    split
    · exact h
    · simp only [List.map_append, List.mem_append]
      exact Or.inl h

/-- A league holding at least one accepted cell appears in the emitted
result of `create_bounded_voronoi`. -/
theorem voronoiEmit_of_hasGeom {G : Type} (ops : GeomOps G) (league_colors : String → String)
    (m : List (String × List G)) (k : String) (g : G) :
    ∀ res, hasGeom m k g →
      k ∈ (m.foldl (voronoiEmitStep ops league_colors) res).map (fun e => e.league) := by
  induction m with
  | nil =>
    intro res h
    obtain ⟨l, hl, _⟩ := h
    simp [alookup] at hl
  | cons p ps ih =>
    intro res h
    obtain ⟨l, hl, hv⟩ := h
    rw [alookup_cons] at hl
    by_cases hpk : (p.1 == k) = true
    · rw [if_pos hpk] at hl
      have hlp : l = p.2 := by
        injection hl with hl2
        exact hl2.symm
      have hne : ¬ (p.2.isEmpty = true) := by
        rw [← hlp]
        cases l with
        | nil => cases hv
        | cons a as => simp
      simp only [List.foldl_cons]
      apply voronoiEmit_mono
      unfold voronoiEmitStep
      rw [if_neg hne]
      simp only [List.map_append, List.mem_append]
      right
      simp [eq_of_beq hpk]
    · rw [if_neg hpk] at hl
      simp only [List.foldl_cons]
      exact ih _ ⟨l, hl, hv⟩

/-- C3 (amended): in `create_bounded_voronoi`, a reconstructed cell whose
intersection with the boundary is non-empty AND has positive area is
always kept and contributes to the owning team's league — there is no
positive minimum-area threshold; however non-empty intersections of zero
area (degenerate point/line contacts) are dropped by the
`clipped.area > 0` test. -/
theorem voronoi_positive_intersection_kept {G : Type} (ops : GeomOps G)
    (voronoi : List (Rat × Rat) → VorDiagram) (teams : List MapTeam)
    (boundary_geom : G) (league_colors : String → String) (i : Nat) (t : MapTeam)
    (hlen : ¬ (teams.length < 2)) (hmem : (i, t) ∈ teams.enum)
    (h1 : (cellRawVertices (voronoi (vorInputPoints ops teams boundary_geom)) i).isEmpty
      = false)
    (h2 : (cellRawVertices (voronoi (vorInputPoints ops teams boundary_geom)) i).contains
      (-1) = false)
    (h3 : ¬ ((cellVertices (voronoi (vorInputPoints ops teams boundary_geom)) i).length < 3))
    (h4 : ops.isEmpty (ops.intersection
      (ops.mkPolygon (cellVertices (voronoi (vorInputPoints ops teams boundary_geom)) i))
      boundary_geom) = false)
    (h5 : 0 < ops.area (ops.intersection
      (ops.mkPolygon (cellVertices (voronoi (vorInputPoints ops teams boundary_geom)) i))
      boundary_geom)) :
    t.league ∈ (create_bounded_voronoi ops voronoi teams boundary_geom
      league_colors).map (fun e => e.league) := by
  obtain ⟨pre, post, hsplit⟩ := List.append_of_mem hmem
  simp only [create_bounded_voronoi]
  rw [if_neg hlen]
  apply voronoiEmit_of_hasGeom ops league_colors _ t.league
    (ops.intersection
      (ops.mkPolygon (cellVertices (voronoi (vorInputPoints ops teams boundary_geom)) i))
      boundary_geom)
  rw [hsplit, List.foldl_append, List.foldl_cons,
    voronoiCellStep_keep _ _ _ _ i t h1 h2 h3 h4 h5]
  apply voronoiCellFold_mono
  exact hasGeom_alAppend_self _ _ _

/-- Team of league A in the C3 instance; its cell meets the boundary in a
non-empty zero-area geometry. -/
def c3t1 : MapTeam :=
  { name := "T1", league := "A", tier := "Counties 1", latitude := 0, longitude := 0 }

/-- Team of league B in the C3 instance; its cell meets the boundary with
positive area. -/
def c3t2 : MapTeam :=
  { name := "T2", league := "B", tier := "Counties 1", latitude := 4, longitude := 4 }

/-- Voronoi oracle of the C3 instance: two bounded three-vertex cells for
the two teams, an empty region for the corner points. -/
def c3vor : List (Rat × Rat) → VorDiagram := fun _ =>
  { point_region := [0, 1, 2, 2, 2, 2],
    regions := [[0, 1, 2], [3, 4, 5], []],
    vertices := [(0, 0), (0, 1), (1, 0), (2, 2), (2, 3), (3, 2)] }

/-- Geometry oracle of the C3 instance over `Nat`-coded geometries: team
A's clipped cell (code 30) is non-empty but has area 0 (a degenerate
sliver); team B's clipped cell (code 40) has area 1. -/
def c3ops : GeomOps Nat :=
  { containsTeam := fun _ _ => false, centroidDist := fun _ _ => 0,
    bounds := fun _ => (0, 0, 4, 4),
    mkPolygon := fun vs => if vs.headD (9, 9) = ((0 : Rat), (0 : Rat)) then 10 else 20,
    intersection := fun c _ => if c = 10 then 30 else 40,
    isEmpty := fun _ => false,
    area := fun g => if g = 30 then 0 else 1,
    unaryUnion := fun l => l.headD 0 }

/-- C3 (counterexample): team A's reconstructed cell has a non-empty
intersection with the boundary, yet league A is absent from the output of
`create_bounded_voronoi` because that intersection has zero area — a
non-empty intersection is not sufficient to be kept. -/
theorem voronoi_nonempty_zero_area_dropped :
    c3ops.isEmpty (c3ops.intersection
      (c3ops.mkPolygon (cellVertices (c3vor (vorInputPoints c3ops [c3t1, c3t2] 99)) 0)) 99)
      = false ∧
    (c3ops.mkPolygon (cellVertices (c3vor (vorInputPoints c3ops [c3t1, c3t2] 99)) 0)) = 10 ∧
    (create_bounded_voronoi c3ops c3vor [c3t1, c3t2] 99 (fun _ => "c")).map
      (fun e => e.league) = ["B"] := by
  decide

/-- Closed instance of `voronoi_positive_intersection_kept`: team B's
positive-area clipped cell puts league B in the output. -/
theorem voronoi_positive_intersection_kept_witness :
    c3t2.league ∈ (create_bounded_voronoi c3ops c3vor [c3t1, c3t2] 99
      (fun _ => "c")).map (fun e => e.league) :=
  voronoi_positive_intersection_kept c3ops c3vor [c3t1, c3t2] 99 (fun _ => "c") 1 c3t2
    (by decide) (by decide) (by decide) (by decide) (by decide) (by decide) (by decide)

theorem levelPassStep_mono {G : Type} (skip : List String)
    (level_colors : List (String × String)) (acc : List (String × List G))
    (p : String × G) (k : String) (g : G) (h : hasGeom acc k g) :
    hasGeom (levelPassStep skip level_colors acc p) k g := by
  unfold levelPassStep
  split
  · exact h
  · rcases alookup level_colors p.1 with _ | league
    · exact h
    · exact hasGeom_alAppend_mono _ _ _ _ _ h

theorem levelPassFold_mono {G : Type} (skip : List String)
    (level_colors : List (String × String)) (regions : List (String × G))
    (k : String) (g : G) :
    ∀ acc, hasGeom acc k g →
      hasGeom (regions.foldl (levelPassStep skip level_colors) acc) k g := by
  induction regions with
  | nil => exact fun acc h => h
  | cons p ps ih =>
    intro acc h
    exact ih _ (levelPassStep_mono skip level_colors acc p k g h)

theorem levelPass_mono {G : Type} (skip : List String)
    (level_colors : List (String × String)) (regions : List (String × G))
    (acc : List (String × List G)) (k : String) (g : G) (h : hasGeom acc k g) :
    hasGeom (levelPass skip level_colors regions acc) k g := by
  unfold levelPass
  split
  · exact h
  · exact levelPassFold_mono skip level_colors regions k g acc h

/-- A colored, unskipped region present in the level's region table has
its geometry recorded under its league by the level pass. -/
theorem levelPass_adds {G : Type} (skip : List String)
    (level_colors : List (String × String)) (regions : List (String × G))
    (acc : List (String × List G)) (name : String) (g : G) (lg : String)
    (hmem : (name, g) ∈ regions) (hskip : skip.contains name = false)
    (hcol : alookup level_colors name = some lg) :
    hasGeom (levelPass skip level_colors regions acc) lg g := by
  have hne : ¬ (level_colors.isEmpty = true) := by
    cases level_colors with
    | nil => simp [alookup] at hcol
    | cons q qs => simp
  unfold levelPass
  rw [if_neg hne]
  obtain ⟨pre, post, hsplit⟩ := List.append_of_mem hmem
  rw [hsplit, List.foldl_append, List.foldl_cons]
  apply levelPassFold_mono
  have hstep : levelPassStep skip level_colors
      (pre.foldl (levelPassStep skip level_colors) acc) (name, g) =
      alAppend (pre.foldl (levelPassStep skip level_colors) acc) lg g := by
    unfold levelPassStep
    rw [if_neg (by rw [hskip]; simp)]
    rw [hcol]
  rw [hstep]
  exact hasGeom_alAppend_self _ _ _

theorem alAppendFold_mono {G : Type} (cells : List (SplitPiece G)) (k : String) (g : G) :
    ∀ acc, hasGeom acc k g →
      hasGeom (cells.foldl (fun lg cell => alAppend lg cell.league cell.geom) acc) k g := by
  induction cells with
  | nil => exact fun acc h => h
  | cons c cs ih =>
    intro acc h
    exact ih _ (hasGeom_alAppend_mono _ _ _ _ _ h)

theorem collectLadStep_mono {G : Type} (ops : GeomOps G)
    (voronoi : List (Rat × Rat) → VorDiagram) (teams : List MapTeam)
    (region_to_teams : RegionToTeams) (itl_hierarchy : ITLHierarchy G)
    (league_colors : String → String) (acc : List (String × List G))
    (region_name : String) (k : String) (g : G) (h : hasGeom acc k g) :
    hasGeom (collectLadStep ops voronoi teams region_to_teams itl_hierarchy league_colors
      acc region_name) k g := by
  simp only [collectLadStep]
  split
  · split
    · exact alAppendFold_mono _ _ _ _ h
    · exact h
  · exact h

theorem collectLadFold_mono {G : Type} (ops : GeomOps G)
    (voronoi : List (Rat × Rat) → VorDiagram) (teams : List MapTeam)
    (region_to_teams : RegionToTeams) (itl_hierarchy : ITLHierarchy G)
    (league_colors : String → String) (regions : List String) (k : String) (g : G) :
    ∀ acc, hasGeom acc k g →
      hasGeom (regions.foldl (collectLadStep ops voronoi teams region_to_teams
        itl_hierarchy league_colors) acc) k g := by
  induction regions with
  | nil => exact fun acc h => h
  | cons r rs ih =>
    intro acc h
    exact ih _ (collectLadStep_mono ops voronoi teams region_to_teams itl_hierarchy
      league_colors acc r k g h)

/-- C1 (amended): the output of `collect_league_geometries_for_tier`
covers exactly the owned territory — every region the coloring assigns to
a league (at any level present in the hierarchy's region tables, excluding
multi-league ITL3s, which contribute their LAD-split pieces instead) has
its full geometry recorded in that league's returned list.  Regions owned
by no league contribute nothing, so the union of the output need not
reconstruct the starting region (gaps are possible, see the
counterexample). -/
theorem collect_covers_colored_regions {G : Type} (ops : GeomOps G)
    (voronoi : List (Rat × Rat) → VorDiagram) (teams : List MapTeam)
    (region_to_teams : RegionToTeams) (itl_hierarchy : ITLHierarchy G)
    (league_colors : String → String) (rc : LeagueRegionColors)
    (hrc : rc = color_regions_by_league teams region_to_teams itl_hierarchy)
    (name : String) (g : G) (lg : String) :
    (((name, g) ∈ itl_hierarchy.itl0_regions → alookup rc.itl0 name = some lg →
      hasGeom (collect_league_geometries_for_tier ops voronoi teams region_to_teams
        itl_hierarchy league_colors) lg g)) ∧
    (((name, g) ∈ itl_hierarchy.itl1_regions → alookup rc.itl1 name = some lg →
      hasGeom (collect_league_geometries_for_tier ops voronoi teams region_to_teams
        itl_hierarchy league_colors) lg g)) ∧
    (((name, g) ∈ itl_hierarchy.itl2_regions → alookup rc.itl2 name = some lg →
      hasGeom (collect_league_geometries_for_tier ops voronoi teams region_to_teams
        itl_hierarchy league_colors) lg g)) ∧
    (((name, g) ∈ itl_hierarchy.itl3_regions → alookup rc.itl3 name = some lg →
      rc.itl3_multi_league.contains name = false →
      hasGeom (collect_league_geometries_for_tier ops voronoi teams region_to_teams
        itl_hierarchy league_colors) lg g)) := by
  subst hrc
  simp only [collect_league_geometries_for_tier]
  refine ⟨?_, ?_, ?_, ?_⟩
  · intro hmem hcol
    split
    · apply levelPass_mono
      apply levelPass_mono
      apply levelPass_mono
      exact levelPass_adds _ _ _ _ _ _ _ hmem rfl hcol
    · apply collectLadFold_mono
      apply levelPass_mono
      apply levelPass_mono
      apply levelPass_mono
      exact levelPass_adds _ _ _ _ _ _ _ hmem rfl hcol
  · intro hmem hcol
    split
    · apply levelPass_mono
      apply levelPass_mono
      exact levelPass_adds _ _ _ _ _ _ _ hmem rfl hcol
    · apply collectLadFold_mono
      apply levelPass_mono
      apply levelPass_mono
      exact levelPass_adds _ _ _ _ _ _ _ hmem rfl hcol
  · intro hmem hcol
    split
    · apply levelPass_mono
      exact levelPass_adds _ _ _ _ _ _ _ hmem rfl hcol
    · apply collectLadFold_mono
      apply levelPass_mono
      exact levelPass_adds _ _ _ _ _ _ _ hmem rfl hcol
  · intro hmem hcol hskip
    split
    · exact levelPass_adds _ _ _ _ _ _ _ hmem hskip hcol
    · apply collectLadFold_mono
      exact levelPass_adds _ _ _ _ _ _ _ hmem hskip hcol

/-- The single team of the C1 counterexample. -/
def c1team : MapTeam :=
  { name := "T", league := "L", tier := "Counties 1", latitude := 0, longitude := 0 }

/-- C1 hierarchy over geometries coded as finite sets of unit-area atoms:
ITL1 region C1 = {1, 2} splits into ITL3 regions A1 = {1} and A2 = {2}
under the single ITL2 B1. -/
def c1hier : ITLHierarchy (List Nat) :=
  { itl0_regions := [], itl1_regions := [("C1", [1, 2])],
    itl2_regions := [("B1", [1, 2])],
    itl3_regions := [("A1", [1]), ("A2", [2])],
    lad_regions := fun _ => [], ward_regions := fun _ => [],
    itl3_to_itl2 := [("A1", "B1"), ("A2", "B1")],
    itl2_to_itl1 := [("B1", "C1")],
    itl1_to_itl2s := [("C1", ["B1"])],
    itl2_to_itl3s := [("B1", ["A1", "A2"])],
    itl3_to_lads := [], lad_to_wards := [] }

/-- C1 region-to-teams maps: the team sits in A1 ⊂ B1 ⊂ C1; A2 holds no
team. -/
def c1rtt : RegionToTeams :=
  { itl1 := [("C1", [c1team])], itl2 := [("B1", [c1team])], itl3 := [("A1", [c1team])] }

/-- Geometry oracle for atom-set geometries; union is concatenation. -/
def c1ops : GeomOps (List Nat) :=
  { containsTeam := fun _ _ => false, centroidDist := fun _ _ => 0,
    bounds := fun _ => (0, 0, 0, 0), mkPolygon := fun _ => [],
    intersection := fun a b => a.filter (fun x => b.contains x),
    isEmpty := fun l => l.isEmpty, area := fun _ => 0,
    unaryUnion := fun ls => ls.flatten }

/-- The union of every geometry of every league in the output, as the
concatenation of their atom sets. -/
def unionAtoms (m : List (String × List (List Nat))) : List Nat :=
  ((m.map (fun p => p.2)).flatten).flatten

/-- C1 (counterexample): a tier with one team under starting region C1
does not reconstruct C1: only the team's own ITL3 region A1 = {1} is
emitted, the teamless sibling A2 = {2} contributes nothing, so atom 2 of
C1 is missing from the union of the output (a gap of a whole region, far
beyond simplification tolerance). -/
theorem collect_coverage_gap :
    1 ≤ [c1team].length ∧
    alookup c1hier.itl1_regions "C1" = some [1, 2] ∧
    (2 : Nat) ∈ ([1, 2] : List Nat) ∧
    unionAtoms (collect_league_geometries_for_tier c1ops (fun _ => ⟨[], [], []⟩) [c1team]
      c1rtt c1hier (fun _ => "c")) = [1] ∧
    (2 : Nat) ∉ unionAtoms (collect_league_geometries_for_tier c1ops (fun _ => ⟨[], [], []⟩)
      [c1team] c1rtt c1hier (fun _ => "c")) := by
  decide

/-- Closed instance of `collect_covers_colored_regions`: the owned ITL3
region A1's geometry {1} appears under league L in the output. -/
theorem collect_covers_colored_regions_witness :
    hasGeom (collect_league_geometries_for_tier c1ops (fun _ => ⟨[], [], []⟩) [c1team]
      c1rtt c1hier (fun _ => "c")) "L" [1] :=
  (collect_covers_colored_regions c1ops (fun _ => ⟨[], [], []⟩) [c1team] c1rtt c1hier
    (fun _ => "c") _ rfl "A1" [1] "L").2.2.2 (by decide) (by decide) (by decide)

theorem mem_of_alookup_eq_some {V : Type} (m : List (String × V)) (k : String) (v : V)
    (h : alookup m k = some v) : (k, v) ∈ m := by
  unfold alookup at h
  rcases hf : m.find? (fun p => p.1 == k) with _ | q
  · rw [hf] at h
    cases h
  · rw [hf] at h
    have hq := List.find?_some hf
    have hm := List.mem_of_find?_eq_some hf
    cases q with
    | mk q1 q2 =>
      have h2 : q2 = v := Option.some.inj h
      have hk : q1 = k := eq_of_beq hq
      rw [← hk, ← h2]
      exact hm

theorem alookup_isSome_of_mem {V : Type} (m : List (String × V)) (k : String) (v : V)
    (h : (k, v) ∈ m) : (alookup m k).isSome := by
  induction m with
  | nil => cases h
  | cons p ps ih =>
    rw [alookup_cons]
    rcases List.mem_cons.mp h with h | h
    · have h1 : p.1 = k := by rw [← h]
      rw [if_pos (by simp [h1])]
      rfl
    · by_cases hpk : (p.1 == k) = true
      · rw [if_pos hpk]
        rfl
      · rw [if_neg hpk]
        exact ih h

theorem mem_ainsert_elim {V : Type} (m : List (String × V)) (k : String) (v : V)
    (q : String × V) (h : q ∈ ainsert m k v) : q ∈ m ∨ q = (k, v) := by
  unfold ainsert at h
  split at h
  · obtain ⟨r, hr, hq⟩ := List.mem_map.mp h
    by_cases hrk : (r.1 == k) = true
    · rw [if_pos hrk] at hq
      exact Or.inr hq.symm
    · rw [if_neg hrk] at hq
      rw [← hq]
      exact Or.inl hr
  · rcases List.mem_append.mp h with h | h
    · exact Or.inl h
    · simp only [List.mem_singleton] at h
      exact Or.inr h

theorem pyTruthy_some_of_ne (p : String) (h : p ≠ "") : pyTruthy (some p) = some p := by
  simp only [pyTruthy]
  rw [if_neg (by simp [h])]

/-- Every pair surviving the final ITL2 filter comes from the ownership
map and has no owned (truthy) parent ITL1. -/
theorem mem_foldl_itl2Filter (m21 own1 : List (String × String)) :
    ∀ (src acc : List (String × String)) (q : String × String),
      q ∈ src.foldl (itl2FilterStep m21 own1) acc →
      q ∈ acc ∨ (q ∈ src ∧
        ∀ parent, pyTruthy (alookup m21 q.1) = some parent →
          alookup own1 parent = none) := by
  intro src
  induction src with
  | nil =>
    intro acc q h
    exact Or.inl h
  | cons p ps ih =>
    intro acc q h
    rw [List.foldl_cons] at h
    rcases ih _ q h with h2 | ⟨hmem, hg⟩
    · unfold itl2FilterStep at h2
      rcases hpt : pyTruthy (alookup m21 p.1) with _ | parent
      · simp only [hpt] at h2
        rcases mem_ainsert_elim _ _ _ _ h2 with h3 | h3
        · exact Or.inl h3
        · have hq1 : q.1 = p.1 := by rw [h3]
          refine Or.inr ⟨by rw [h3]; exact List.mem_cons_self _ _, ?_⟩
          intro parent2 hp2
          rw [hq1, hpt] at hp2
          cases hp2
      · simp only [hpt] at h2
        by_cases hown : ((alookup own1 parent).isSome : Prop)
        · rw [if_pos hown] at h2
          exact Or.inl h2
        · rw [if_neg hown] at h2
          rcases mem_ainsert_elim _ _ _ _ h2 with h3 | h3
          · exact Or.inl h3
          · have hq1 : q.1 = p.1 := by rw [h3]
            refine Or.inr ⟨by rw [h3]; exact List.mem_cons_self _ _, ?_⟩
            intro parent2 hp2
            rw [hq1, hpt] at hp2
            injection hp2 with hp2
            rw [← hp2]
            rcases halo : alookup own1 parent with _ | w
            · rfl
            · rw [halo] at hown
              simp at hown
    · exact Or.inr ⟨List.mem_cons_of_mem p hmem, hg⟩

/-- Every pair surviving the final ITL3 filter comes from the ownership
map and has no owned parent or grandparent. -/
theorem mem_foldl_itl3Filter (m32 m21 own2 own1 : List (String × String)) :
    ∀ (src acc : List (String × String)) (q : String × String),
      q ∈ src.foldl (itl3FilterStep m32 m21 own2 own1) acc →
      q ∈ acc ∨ (q ∈ src ∧ itl3ParentOwned m32 m21 own2 own1 q.1 = false) := by
  intro src
  induction src with
  | nil =>
    intro acc q h
    exact Or.inl h
  | cons p ps ih =>
    intro acc q h
    rw [List.foldl_cons] at h
    rcases ih _ q h with h2 | ⟨hmem, hg⟩
    · unfold itl3FilterStep at h2
      by_cases hp : (itl3ParentOwned m32 m21 own2 own1 p.1 = true)
      · rw [if_pos hp] at h2
        exact Or.inl h2
      · rw [if_neg hp] at h2
        rcases mem_ainsert_elim _ _ _ _ h2 with h3 | h3
        · exact Or.inl h3
        · have hq1 : q.1 = p.1 := by rw [h3]
          refine Or.inr ⟨by rw [h3]; exact List.mem_cons_self _ _, ?_⟩
          rw [hq1]
          exact Bool.not_eq_true _ ▸ hp
    · exact Or.inr ⟨List.mem_cons_of_mem p hmem, hg⟩

/-- Every region in the multi-league list is unowned and has no owned
parent or grandparent. -/
theorem mem_foldl_itl3Multi (teams : List MapTeam)
    (own3 m32 m21 own2 own1 : List (String × String)) :
    ∀ (src : List (String × List MapTeam)) (acc : List String) (n : String),
      n ∈ src.foldl (itl3MultiStep teams own3 m32 m21 own2 own1) acc →
      n ∈ acc ∨ (alookup own3 n = none ∧
        itl3ParentOwned m32 m21 own2 own1 n = false) := by
  intro src
  induction src with
  | nil =>
    intro acc n h
    exact Or.inl h
  | cons p ps ih =>
    intro acc n h
    rw [List.foldl_cons] at h
    rcases ih _ n h with h2 | hg
    · simp only [itl3MultiStep] at h2
      by_cases ho : ((alookup own3 p.1).isSome : Prop)
      · rw [if_pos ho] at h2
        exact Or.inl h2
      · rw [if_neg ho] at h2
        by_cases hp : (itl3ParentOwned m32 m21 own2 own1 p.1 = true)
        · rw [if_pos hp] at h2
          exact Or.inl h2
        · rw [if_neg hp] at h2
          by_cases hc1 : (2 ≤ (tierTeams teams p.2).length)
          · rw [if_pos hc1] at h2
            by_cases hc2 : (2 ≤ (leaguesOf (tierTeams teams p.2)).length)
            · rw [if_pos hc2] at h2
              rcases List.mem_append.mp h2 with h3 | h3
              · exact Or.inl h3
              · simp only [List.mem_singleton] at h3
                rw [h3]
                refine Or.inr ⟨?_, Bool.not_eq_true _ ▸ hp⟩
                rcases halo : alookup own3 p.1 with _ | w
                · rfl
                · rw [halo] at ho
                  simp at ho
            · rw [if_neg hc2] at h2
              exact Or.inl h2
          · rw [if_neg hc1] at h2
            exact Or.inl h2
    · exact Or.inr hg

/-- Extracting the two unowned-ancestor facts from a false
`itl3ParentOwned` test. -/
theorem itl3ParentOwned_false_elim (m32 m21 own2 own1 : List (String × String))
    (n : String) (h : itl3ParentOwned m32 m21 own2 own1 n = false) :
    ∀ p, pyTruthy (alookup m32 n) = some p →
      alookup own2 p = none ∧
      ∀ gp, pyTruthy (alookup m21 p) = some gp → alookup own1 gp = none := by
  intro p hp
  simp only [itl3ParentOwned, hp] at h
  rw [Bool.or_eq_false_iff] at h
  obtain ⟨h1, h2⟩ := h
  constructor
  · rcases halo : alookup own2 p with _ | w
    · rfl
    · rw [halo] at h1
      simp at h1
  · intro gp hgp
    simp only [hgp] at h2
    rcases halo : alookup own1 gp with _ | w
    · rfl
    · rw [halo] at h2
      simp at h2

/-- A key absent from the ITL2 ownership map is absent from the filtered
returned ITL2 map. -/
theorem alookup_itl2Filter_none (m21 own1 own2 : List (String × String)) (p : String)
    (h : alookup own2 p = none) :
    alookup (own2.foldl (itl2FilterStep m21 own1) []) p = none := by
  rcases hres : alookup (own2.foldl (itl2FilterStep m21 own1) []) p with _ | v
  · rfl
  · exfalso
    have hmem := mem_of_alookup_eq_some _ _ _ hres
    rcases mem_foldl_itl2Filter m21 own1 own2 [] (p, v) hmem with h2 | ⟨hmem2, _⟩
    · cases h2
    · have hsome := alookup_isSome_of_mem own2 p v hmem2
      rw [h] at hsome
      simp at hsome

/-- C10 (amended): ownership is never emitted at a finer level under an
owned ancestor, provided the ancestor names are non-empty strings: an ITL2
in the returned map whose `itl2_to_itl1` parent is a non-empty name has
that parent absent from the returned ITL1 map; an ITL3 in the returned map
or in the multi-league list whose `itl3_to_itl2` parent is a non-empty
name has that parent absent from the returned ITL2 map and, when the
grandparent name is also non-empty, the grandparent absent from the
returned ITL1 map.  (An empty-string ancestor name is falsy in Python, so
the source skips the ancestor check there — see the counterexample.) -/
theorem color_regions_no_nested_ownership {G : Type} (teams : List MapTeam)
    (region_to_teams : RegionToTeams) (itl_hierarchy : ITLHierarchy G)
    (rc : LeagueRegionColors)
    (hrc : rc = color_regions_by_league teams region_to_teams itl_hierarchy) :
    (∀ n lgv p, alookup rc.itl2 n = some lgv →
      alookup itl_hierarchy.itl2_to_itl1 n = some p → p ≠ "" →
      alookup rc.itl1 p = none) ∧
    (∀ n lgv p, alookup rc.itl3 n = some lgv →
      alookup itl_hierarchy.itl3_to_itl2 n = some p → p ≠ "" →
      alookup rc.itl2 p = none ∧
      (∀ gp, alookup itl_hierarchy.itl2_to_itl1 p = some gp → gp ≠ "" →
        alookup rc.itl1 gp = none)) ∧
    (∀ n p, n ∈ rc.itl3_multi_league →
      alookup itl_hierarchy.itl3_to_itl2 n = some p → p ≠ "" →
      alookup rc.itl2 p = none ∧
      (∀ gp, alookup itl_hierarchy.itl2_to_itl1 p = some gp → gp ≠ "" →
        alookup rc.itl1 gp = none)) := by
  subst hrc
  simp only [color_regions_by_league]
  split
  · refine ⟨?_, ?_, ?_⟩
    · intro n lgv p halo hm21 hne
      simp [alookup] at halo
    · intro n lgv p hl3 hm32 hne
      simp [alookup] at hl3
    · intro n p hmulti hm32 hne
      simp at hmulti
  · refine ⟨?_, ?_, ?_⟩
    · intro n lgv p halo hm21 hne
      have hmem := mem_of_alookup_eq_some _ _ _ halo
      rcases mem_foldl_itl2Filter _ _ _ _ _ hmem with h2 | ⟨_, hg⟩
      · cases h2
      · exact hg p (by rw [hm21]; exact pyTruthy_some_of_ne p hne)
    · intro n lgv p hl3 hm32 hne
      have hmem := mem_of_alookup_eq_some _ _ _ hl3
      rcases mem_foldl_itl3Filter _ _ _ _ _ _ _ hmem with h2 | ⟨_, hPO⟩
      · cases h2
      · obtain ⟨h1, h2⟩ := itl3ParentOwned_false_elim _ _ _ _ _ hPO p
          (by rw [hm32]; exact pyTruthy_some_of_ne p hne)
        refine ⟨alookup_itl2Filter_none _ _ _ _ h1, ?_⟩
        intro gp hm21 hgpne
        exact h2 gp (by rw [hm21]; exact pyTruthy_some_of_ne gp hgpne)
    · intro n p hmulti hm32 hne
      rcases mem_foldl_itl3Multi _ _ _ _ _ _ _ _ _ hmulti with h2 | ⟨_, hPO⟩
      · cases h2
      · obtain ⟨h1, h2⟩ := itl3ParentOwned_false_elim _ _ _ _ _ hPO p
          (by rw [hm32]; exact pyTruthy_some_of_ne p hne)
        refine ⟨alookup_itl2Filter_none _ _ _ _ h1, ?_⟩
        intro gp hm21 hgpne
        exact h2 gp (by rw [hm21]; exact pyTruthy_some_of_ne gp hgpne)

/-- First team of the C10 counterexample, in A ⊂ B ⊂ "" (an ITL1 whose
name is the empty string). -/
def c10t1 : MapTeam :=
  { name := "T", league := "L", tier := "Counties 1", latitude := 0, longitude := 0 }

/-- Second team of the C10 counterexample, in A2 ⊂ B2 ⊂ "". -/
def c10t2 : MapTeam :=
  { name := "U", league := "L", tier := "Counties 1", latitude := 1, longitude := 1 }

/-- Hierarchy of the C10 counterexample: both ITL2s B and B2 have the
empty-string ITL1 as parent. -/
def c10hier : ITLHierarchy Nat :=
  { itl0_regions := [], itl1_regions := [("", 1)],
    itl2_regions := [("B", 2), ("B2", 3)],
    itl3_regions := [("A", 4), ("A2", 5)],
    lad_regions := fun _ => 0, ward_regions := fun _ => 0,
    itl3_to_itl2 := [("A", "B"), ("A2", "B2")],
    itl2_to_itl1 := [("B", ""), ("B2", "")],
    itl1_to_itl2s := [("", ["B", "B2"])],
    itl2_to_itl3s := [("B", ["A"]), ("B2", ["A2"])],
    itl3_to_lads := [], lad_to_wards := [] }

/-- Region-to-teams maps of the C10 counterexample. -/
def c10rtt : RegionToTeams :=
  { itl1 := [("", [c10t1, c10t2])],
    itl2 := [("B", [c10t1]), ("B2", [c10t2])],
    itl3 := [("A", [c10t1]), ("A2", [c10t2])] }

/-- The team list of the C10 counterexample. -/
def c10teams : List MapTeam := [c10t1, c10t2]

/-- C10 (counterexample): with an ITL1 named by the empty string — falsy
in Python, so the parent-derived skip is bypassed — the returned ITL2 map
keeps "B" although its parent ITL1 "" (present in `itl2_to_itl1`) is in
the returned ITL1 map: ownership is emitted at a finer level under an
owned ancestor. -/
theorem color_regions_nested_ownership_empty_name :
    alookup (color_regions_by_league c10teams c10rtt c10hier).itl2 "B" = some "L" ∧
    alookup c10hier.itl2_to_itl1 "B" = some "" ∧
    alookup (color_regions_by_league c10teams c10rtt c10hier).itl1 "" = some "L" := by
  decide

/-- Hierarchy of the C10 witness: B1 (with the tier's only team) and the
teamless B2 are the two ITL2 children of C1, so C1 is not owned and B1
survives the filter with its parent unowned. -/
def w10hier : ITLHierarchy Nat :=
  { itl0_regions := [], itl1_regions := [("C1", 1)],
    itl2_regions := [("B1", 2), ("B2", 3)],
    itl3_regions := [("A1", 4)],
    lad_regions := fun _ => 0, ward_regions := fun _ => 0,
    itl3_to_itl2 := [("A1", "B1")],
    itl2_to_itl1 := [("B1", "C1"), ("B2", "C1")],
    itl1_to_itl2s := [("C1", ["B1", "B2"])],
    itl2_to_itl3s := [("B1", ["A1"])],
    itl3_to_lads := [], lad_to_wards := [] }

/-- Region-to-teams maps of the C10 witness. -/
def w10rtt : RegionToTeams :=
  { itl1 := [("C1", [c10t1])], itl2 := [("B1", [c10t1])], itl3 := [("A1", [c10t1])] }

/-- Closed instance of `color_regions_no_nested_ownership`: the retained
ITL2 "B1" forces its parent "C1" out of the returned ITL1 map. -/
theorem color_regions_no_nested_ownership_witness :
    alookup (color_regions_by_league [c10t1] w10rtt w10hier).itl1 "C1" = none :=
  (color_regions_no_nested_ownership [c10t1] w10rtt w10hier _ rfl).1 "B1" "L" "C1"
    (by decide) (by decide) (by decide)
